import Mathlib

/-!
Shallow embedding of the Mixing Automation Engine of `music_create`
(`src/music_create/mixing/*.py`, `src/music_create/audio/mix_render.py`).

Conventions of the embedding:
* Python floats are modelled by `ℚ` in the service / registry / suggestion
  layer, whose operations (min, max, linear blends, comparisons) are exact
  field operations, and by `ℝ` in the analysis / DSP layer, whose operations
  involve `log`, `sqrt`, `exp` and `tanh`.
* Python dicts keyed by strings are modelled by association lists
  (`List (String × β)`); lookup takes the first matching entry.  The FX chain
  dict, keyed by the closed four-member effect enum and always holding all
  four effects (module invariant of `default_fx_chain` / `clone`), is a
  structure with four fields.
* Mutation becomes explicit state passing.  Every in-place dict mutation in
  the source happens on a chain freshly produced by `.clone()`, so value
  semantics is faithful; `clone` itself is the identity on values.
* Python exceptions become an explicit `PyErr` result: operations return the
  raised error together with the state as mutated up to the raise point.
-/

namespace MusicCreate

/-- Python exception kinds raised by the mixing service layer:
`KeyError`, `ValueError` and `RuntimeError`, each carrying its message. -/
inductive PyErr where
  | keyError (msg : String)
  | valueError (msg : String)
  | runtimeError (msg : String)
  deriving DecidableEq, Repr

/-- Lookup in an association list modelling a Python dict (first match). -/
def aget (k : String) : List (String × β) → Option β
  | [] => none
  | (k', v) :: rest => if k' = k then some v else aget k rest

/-- Assignment of an existing key in an association-list dict: every entry
with the key is overwritten, the rest is unchanged. -/
def aset (k : String) (v : β) : List (String × β) → List (String × β)
  | [] => []
  | (k', v') :: rest =>
    if k' = k then (k', v) :: aset k v rest else (k', v') :: aset k v rest

/-- Update of the entries holding key `k` by a function (used for the
`applied` flag flip of `revert`). -/
def amodify (k : String) (f : β → β) : List (String × β) → List (String × β)
  | [] => []
  | (k', v') :: rest =>
    if k' = k then (k', f v') :: amodify k f rest else (k', v') :: amodify k f rest

/-- Removal of a key, modelling `dict.pop`. -/
def aremove (k : String) (l : List (String × β)) : List (String × β) :=
  l.filter (fun p => p.1 ≠ k)

/-- Closed four-member effect enum `BuiltinEffectType` of `mixing/models.py`. -/
inductive BuiltinEffectType where
  | eq
  | compressor
  | gate
  | saturator
  deriving DecidableEq, Repr

/-- Analysis fidelity `AnalysisMode` of `mixing/models.py`. -/
inductive AnalysisMode where
  | quick
  | full
  deriving DecidableEq, Repr

/-- The `MixProfile` literal type of `mixing/models.py`. -/
inductive MixProfile where
  | clean
  | punch
  | warm
  deriving DecidableEq, Repr

/-- String rendering of a profile, as it appears in reason strings. -/
def MixProfile.text : MixProfile → String
  | .clean => "clean"
  | .punch => "punch"
  | .warm => "warm"

/-- The `TrackFeatures` record of `mixing/models.py`, polymorphic in the
scalar type (`ℚ` for the suggestion layer, `ℝ` for the analyzer). -/
structure TrackFeatures (α : Type) where
  lufs : α
  peak_dbfs : α
  rms_dbfs : α
  crest_factor_db : α
  spectral_centroid_hz : α
  band_energy_low : α
  band_energy_mid : α
  band_energy_high : α
  dynamic_range_db : α
  loudness_range_db : α
  transient_density : α
  zero_crossing_rate : α
  deriving DecidableEq, Repr

/-- The `BuiltinFXState` record of `mixing/models.py`: one effect's
parameter dict. -/
structure BuiltinFXState (α : Type) where
  effect_type : BuiltinEffectType
  parameters : List (String × α)
  deriving DecidableEq, Repr

/-- The `BuiltinFXChainState` record of `mixing/models.py`.  Its `effects`
dict always contains exactly the four builtin effects (invariant of
`default_fx_chain` and `clone`), so it is modelled by four fields. -/
structure BuiltinFXChainState (α : Type) where
  eq_fx : BuiltinFXState α
  compressor_fx : BuiltinFXState α
  gate_fx : BuiltinFXState α
  saturator_fx : BuiltinFXState α
  deriving DecidableEq, Repr

/-- Access `chain.effects[effect_type]`. -/
def getEffect (c : BuiltinFXChainState α) : BuiltinEffectType → BuiltinFXState α
  | .eq => c.eq_fx
  | .compressor => c.compressor_fx
  | .gate => c.gate_fx
  | .saturator => c.saturator_fx

/-- Replace `chain.effects[effect_type]`. -/
def setEffect (c : BuiltinFXChainState α) :
    BuiltinEffectType → BuiltinFXState α → BuiltinFXChainState α
  | .eq, st => { c with eq_fx := st }
  | .compressor, st => { c with compressor_fx := st }
  | .gate, st => { c with gate_fx := st }
  | .saturator, st => { c with saturator_fx := st }

/-- The `clone` method of `BuiltinFXChainState`: a deep copy, which on the
value level is the identity. -/
def BuiltinFXChainState.clone (c : BuiltinFXChainState α) : BuiltinFXChainState α :=
  c

/-- The `ParameterSpec` record of `mixing/fx.py`. -/
structure ParameterSpec (α : Type) where
  param_id : String
  default : α
  minimum : α
  maximum : α
  deriving DecidableEq, Repr

/-- The `EFFECT_SPECS` registry of `mixing/fx.py`: parameter specs per
builtin effect. -/
def EFFECT_SPECS (α : Type) [LinearOrderedField α] :
    BuiltinEffectType → List (ParameterSpec α)
  | .eq =>
    [⟨"low_gain_db", 0, -18, 18⟩,
     ⟨"mid_gain_db", 0, -18, 18⟩,
     ⟨"high_gain_db", 0, -18, 18⟩,
     ⟨"low_freq_hz", 120, 20, 400⟩,
     ⟨"high_freq_hz", 5000, 1500, 12000⟩]
  | .compressor =>
    [⟨"threshold_db", -18, -60, 0⟩,
     ⟨"ratio", 3, 1, 20⟩,
     ⟨"attack_ms", 12, 0.1, 100⟩,
     ⟨"release_ms", 120, 5, 1000⟩,
     ⟨"makeup_db", 0, 0, 24⟩]
  | .gate =>
    [⟨"threshold_db", -40, -80, 0⟩,
     ⟨"attack_ms", 2, 0.1, 50⟩,
     ⟨"release_ms", 120, 5, 500⟩]
  | .saturator =>
    [⟨"drive", 0, 0, 1⟩,
     ⟨"mix", 0, 0, 1⟩]

/-- The `default_fx_chain` builder of `mixing/fx.py`: every parameter at its
spec default. -/
def default_fx_chain (α : Type) [LinearOrderedField α] : BuiltinFXChainState α :=
  { eq_fx := ⟨.eq, (EFFECT_SPECS α .eq).map fun ps => (ps.param_id, ps.default)⟩
    compressor_fx :=
      ⟨.compressor, (EFFECT_SPECS α .compressor).map fun ps => (ps.param_id, ps.default)⟩
    gate_fx := ⟨.gate, (EFFECT_SPECS α .gate).map fun ps => (ps.param_id, ps.default)⟩
    saturator_fx :=
      ⟨.saturator, (EFFECT_SPECS α .saturator).map fun ps => (ps.param_id, ps.default)⟩ }

/-- Scan of a spec list for a parameter id, first match wins, as in the
loop of `clamp_param`. -/
def clamp_scan {α : Type} [LinearOrderedField α] (param_id : String) (value : α) :
    List (ParameterSpec α) → Except PyErr α
  | [] => .error (.keyError ("Unknown parameter " ++ param_id ++ " for effect"))
  | ps :: rest =>
    if ps.param_id = param_id then .ok (min (max value ps.minimum) ps.maximum)
    else clamp_scan param_id value rest

/-- The `clamp_param` function of `mixing/fx.py`: scans the effect's spec for
the parameter and clamps into `[minimum, maximum]`; an unknown parameter id
raises `KeyError`. -/
def clamp_param {α : Type} [LinearOrderedField α] (effect_type : BuiltinEffectType)
    (param_id : String) (value : α) : Except PyErr α :=
  clamp_scan param_id value (EFFECT_SPECS α effect_type)

/-- The `SendState` record of `mixing/mixer_graph.py`. -/
structure SendState (α : Type) where
  target_bus_id : String
  level_db : α
  pre_fader : Bool
  deriving DecidableEq, Repr

/-- The `MixerTrackState` record of `mixing/mixer_graph.py`. -/
structure MixerTrackState (α : Type) where
  track_id : String
  input_gain_db : α
  fx_chain : BuiltinFXChainState α
  fader_db : α
  pan : α
  sends : List (SendState α)
  deriving DecidableEq, Repr

/-- Default field values of a fresh `MixerTrackState(track_id)`. -/
def defaultTrack (α : Type) [LinearOrderedField α] (t : String) : MixerTrackState α :=
  { track_id := t, input_gain_db := 0, fx_chain := default_fx_chain α,
    fader_db := 0, pan := 0, sends := [] }

/-- The `MixerGraph` record of `mixing/mixer_graph.py`, at the scalar type ℚ
used by the service layer. -/
structure MixerGraph where
  tracks : List (String × MixerTrackState ℚ)
  deriving DecidableEq, Repr

/-- The `ensure_track` method: returns the existing track or creates one
with the default chain and zeroed gain/pan.  Returns the track together
with the (possibly extended) graph. -/
def ensure_track (g : MixerGraph) (t : String) : MixerTrackState ℚ × MixerGraph :=
  match aget t g.tracks with
  | some tr => (tr, g)
  | none =>
    let tr := defaultTrack ℚ t
    (tr, { tracks := (t, tr) :: g.tracks })

/-- The `Suggestion` record of `mixing/models.py` (service layer, ℚ).  The
`param_updates` dict is an association list keyed by effect type. -/
structure Suggestion where
  suggestion_id : String
  track_id : String
  profile : MixProfile
  variant : String
  score : ℚ
  reason : String
  param_updates : List (BuiltinEffectType × List (String × ℚ))
  deriving DecidableEq, Repr

/-- The `SuggestionCommand` record of `mixing/models.py` (`created_at`, a
wall-clock timestamp, is omitted from the model). -/
structure SuggestionCommand where
  command_id : String
  track_id : String
  suggestion_id : String
  before_chain : BuiltinFXChainState ℚ
  after_chain : BuiltinFXChainState ℚ
  applied : Bool
  deriving DecidableEq, Repr

namespace MixingService

/-- Mutable state of a `MixingService` instance: the mixer graph, the
builtin-only capability flag, the suggestion store, the append-only command
history and the per-track preview baselines.  `next_command_id` models the
`uuid4` generator as a counter producing fresh command ids.  The analysis
futures and engine configuration are modelled separately
(`run_analysis`, `generateSuggestions`). -/
structure State where
  mixer_graph : MixerGraph
  builtin_only : Bool
  suggestions : List (String × Suggestion)
  commands : List (String × SuggestionCommand)
  command_order : List String
  preview_cache : List (String × BuiltinFXChainState ℚ)
  next_command_id : Nat
  deriving DecidableEq, Repr

/-- Live FX chain of a track, when the track exists. -/
def track_chain (s : State) (t : String) : Option (BuiltinFXChainState ℚ) :=
  (aget t s.mixer_graph.tracks).map (·.fx_chain)

/-- Overwrite the live FX chain of an existing track. -/
def setChain (s : State) (t : String) (c : BuiltinFXChainState ℚ) : State :=
  { s with mixer_graph :=
      { tracks := amodify t (fun tr => { tr with fx_chain := c }) s.mixer_graph.tracks } }

/-- The `_get_suggestion` lookup of `mixing/service.py`: `KeyError` for an
unknown id, `ValueError` when the stored suggestion belongs to another
track. -/
def get_suggestion (s : State) (suggestion_id track_id : String) :
    Except PyErr Suggestion :=
  match aget suggestion_id s.suggestions with
  | none => .error (.keyError ("Suggestion " ++ suggestion_id ++ " not found"))
  | some sg =>
    if sg.track_id = track_id then .ok sg
    else .error (.valueError
      ("Suggestion " ++ suggestion_id ++ " belongs to track " ++ sg.track_id ++
       ", not " ++ track_id))

/-- Inner loop of `_apply_param_updates` over one effect's update dict:
read the current value from the chain (`KeyError` when absent), blend it
toward the target by the normalized mix, clamp through the registry and
write it back. -/
def apply_updates_params (et : BuiltinEffectType) (mix : ℚ) :
    List (String × ℚ) → BuiltinFXChainState ℚ → Except PyErr (BuiltinFXChainState ℚ)
  | [], ch => .ok ch
  | (pid, target) :: rest, ch =>
    match aget pid (getEffect ch et).parameters with
    | none => .error (.keyError ("Unknown chain parameter " ++ pid))
    | some current =>
      match clamp_param et pid (current + (target - current) * mix) with
      | .error e => .error e
      | .ok v =>
        apply_updates_params et mix rest
          (setEffect ch et { getEffect ch et with parameters := aset pid v (getEffect ch et).parameters })

/-- Outer loop of `_apply_param_updates` over the update dict's effects. -/
def apply_updates_effects (mix : ℚ) :
    List (BuiltinEffectType × List (String × ℚ)) → BuiltinFXChainState ℚ →
      Except PyErr (BuiltinFXChainState ℚ)
  | [], ch => .ok ch
  | (et, ups) :: rest, ch =>
    match apply_updates_params et mix ups ch with
    | .error e => .error e
    | .ok ch' => apply_updates_effects mix rest ch'

/-- The `_apply_param_updates` helper of `mixing/service.py`: clamps the
`dry_wet` factor into `[0, 1]` and blends every update into the chain. -/
def apply_param_updates (chain : BuiltinFXChainState ℚ)
    (updates : List (BuiltinEffectType × List (String × ℚ))) (dry_wet : ℚ) :
    Except PyErr (BuiltinFXChainState ℚ) :=
  apply_updates_effects (min (max dry_wet 0) 1) updates chain

/-- The `preview` operation of `mixing/service.py`.  Returns the raised
error (if any) together with the state as mutated up to the raise point. -/
def preview (s : State) (track_id suggestion_id : String) (dry_wet : ℚ) :
    Option PyErr × State :=
  if s.builtin_only then
    match get_suggestion s suggestion_id track_id with
    | .error e => (some e, s)
    | .ok sg =>
      let tg := ensure_track s.mixer_graph track_id
      let s1 := { s with mixer_graph := tg.2 }
      match aget track_id s1.preview_cache with
      | some baseline =>
        match apply_param_updates baseline.clone sg.param_updates dry_wet with
        | .error e => (some e, s1)
        | .ok updated => (none, setChain s1 track_id updated)
      | none =>
        let baseline := tg.1.fx_chain.clone
        let s2 := { s1 with preview_cache := (track_id, baseline) :: s1.preview_cache }
        match apply_param_updates baseline.clone sg.param_updates dry_wet with
        | .error e => (some e, s2)
        | .ok updated => (none, setChain s2 track_id updated)
  else (some (.runtimeError "builtin-only guard expected"), s)

/-- The `cancel_preview` operation: pops the cached baseline (no-op when
none) and writes it back as the live chain. -/
def cancel_preview (s : State) (track_id : String) : State :=
  match aget track_id s.preview_cache with
  | none => s
  | some baseline =>
    let s1 := { s with preview_cache := aremove track_id s.preview_cache }
    let tg := ensure_track s1.mixer_graph track_id
    setChain { s1 with mixer_graph := tg.2 } track_id baseline

/-- The `apply` operation of `mixing/service.py`: cancels any pending
preview, captures the then-current chain as `before`, computes `after` at
`dry_wet = 1.0`, writes it live and appends an applied command. -/
def apply (s : State) (track_id suggestion_id : String) :
    Except PyErr String × State :=
  if s.builtin_only then
    match get_suggestion s suggestion_id track_id with
    | .error e => (.error e, s)
    | .ok sg =>
      let tg := ensure_track s.mixer_graph track_id
      let s2 := cancel_preview { s with mixer_graph := tg.2 } track_id
      match aget track_id s2.mixer_graph.tracks with
      | none => (.error (.keyError "track missing"), s2)
      | some tr2 =>
        let before := tr2.fx_chain.clone
        match apply_param_updates before.clone sg.param_updates 1 with
        | .error e => (.error e, s2)
        | .ok after =>
          let cid := "cmd-" ++ toString s2.next_command_id
          let cmd : SuggestionCommand :=
            { command_id := cid, track_id := track_id, suggestion_id := suggestion_id,
              before_chain := before, after_chain := after.clone, applied := true }
          (.ok cid,
            { setChain s2 track_id after with
              commands := (cid, cmd) :: s2.commands,
              command_order := s2.command_order ++ [cid],
              next_command_id := s2.next_command_id + 1 })
  else (.error (.runtimeError "builtin-only guard expected"), s)

/-- The `revert` operation of `mixing/service.py`: `KeyError` for an
unknown command id; otherwise cancels any preview on the command's track,
restores `before_chain` and flips `applied` to false. -/
def revert (s : State) (command_id : String) : Option PyErr × State :=
  match aget command_id s.commands with
  | none => (some (.keyError ("Command " ++ command_id ++ " not found")), s)
  | some cmd =>
    let tg := ensure_track s.mixer_graph cmd.track_id
    let s1 := cancel_preview { s with mixer_graph := tg.2 } cmd.track_id
    let s2 := setChain s1 cmd.track_id cmd.before_chain.clone
    (none, { s2 with commands := amodify command_id (fun c => { c with applied := false }) s2.commands })

end MixingService

/-- The `SuggestionEngineMode` literal type of `mixing/suggestion_engine.py`. -/
inductive SuggestionEngineMode where
  | ruleBased
  | llmBased
  deriving DecidableEq, Repr

/-- Round half-to-even to an integer, modelling Python's banker's rounding
used by `round(value, 4)`. -/
def roundHalfEven (y : ℚ) : ℤ :=
  if y - ⌊y⌋ < 1 / 2 then ⌊y⌋
  else if 1 / 2 < y - ⌊y⌋ then ⌊y⌋ + 1
  else if ⌊y⌋ % 2 = 0 then ⌊y⌋ else ⌊y⌋ + 1

/-- Python's `round(x, 4)`. -/
def round4 (x : ℚ) : ℚ :=
  (roundHalfEven (x * 10000) : ℚ) / 10000

/-- The `_Candidate` record of `mixing/suggestions.py`. -/
structure Candidate where
  variant : String
  score : ℚ
  param_updates : List (BuiltinEffectType × List (String × ℚ))
  deriving DecidableEq, Repr

/-- Score-descending comparison used by `variants.sort(key=score,
reverse=True)`. -/
def candScoreDesc (a b : Candidate) : Prop :=
  b.score ≤ a.score

instance : DecidableRel candScoreDesc :=
  fun a b => inferInstanceAs (Decidable (b.score ≤ a.score))

instance : IsTotal Candidate candScoreDesc :=
  ⟨fun a b => le_total b.score a.score⟩

instance : IsTrans Candidate candScoreDesc :=
  ⟨fun _ _ _ h1 h2 => le_trans h2 h1⟩

/-- Score-descending comparison used by `suggestions.sort(key=score,
reverse=True)`. -/
def scoreDesc (a b : Suggestion) : Prop :=
  b.score ≤ a.score

instance : DecidableRel scoreDesc :=
  fun a b => inferInstanceAs (Decidable (b.score ≤ a.score))

instance : IsTotal Suggestion scoreDesc :=
  ⟨fun a b => le_total b.score a.score⟩

instance : IsTrans Suggestion scoreDesc :=
  ⟨fun _ _ _ h1 h2 => le_trans h2 h1⟩

/-- The `_infer_role` heuristic of `mixing/suggestions.py`. -/
def infer_role (features : TrackFeatures ℚ) : String :=
  if 0.44 ≤ features.band_energy_low ∧ features.spectral_centroid_hz < 900 then "bass"
  else if 0.18 < features.transient_density ∧ 8 < features.crest_factor_db then "drums"
  else if 0.42 < features.band_energy_high ∧ 2500 < features.spectral_centroid_hz then "lead"
  else "harmonic"

/-- The `_build_variants` formula of `mixing/suggestions.py`: three named
candidates built from profile-dependent bases and role/feature biases.
The role argument only ever takes the four values produced by
`infer_role`; the dict lookups are modelled by if-chains whose final
branch is the `harmonic` entry. -/
def build_variants (profile : MixProfile) (role : String) (features : TrackFeatures ℚ) :
    List Candidate :=
  let profile_gain : ℚ := match profile with
    | .clean => 0.05
    | .punch => 0.08
    | .warm => 0.06
  let role_bias : ℚ :=
    if role = "bass" then 0.09 else if role = "drums" then 0.1
    else if role = "lead" then 0.07 else 0.06
  let gate_threshold : ℚ :=
    (if 19 < features.dynamic_range_db then (-58 : ℚ) else -45) +
      (if role = "drums" then (-4 : ℚ) else 0)
  let base_ratio : ℚ := match profile with
    | .clean => 2.4
    | .punch => 4.2
    | .warm => 3.2
  let base_eq_high : ℚ :=
    (match profile with
      | .clean => (1.8 : ℚ)
      | .punch => 1.1
      | .warm => -0.6) +
    (if role = "bass" then (-1.2 : ℚ) else 0) + (if role = "lead" then (0.8 : ℚ) else 0)
  let base_sat : ℚ :=
    (match profile with
      | .clean => (0.08 : ℚ)
      | .punch => 0.26
      | .warm => 0.34) + (if role = "drums" then (0.08 : ℚ) else 0)
  let transient_push : ℚ := min (max ((features.transient_density - 0.08) * 1.8) 0) 0.18
  let lra_push : ℚ := min (max ((features.loudness_range_db - 7) * 0.012) 0) 0.1
  [{ variant := "balanced",
     score := 0.78 + profile_gain + role_bias + lra_push,
     param_updates :=
       [(.eq, [("high_gain_db", base_eq_high)]),
        (.compressor, [("ratio", base_ratio), ("threshold_db", -20 + transient_push * (-10))]),
        (.gate, [("threshold_db", gate_threshold)]),
        (.saturator, [("mix", base_sat)])] },
   { variant := "tight",
     score := 0.75 + profile_gain + transient_push + role_bias * 0.9,
     param_updates :=
       [(.eq, [("high_gain_db", base_eq_high - 0.5)]),
        (.compressor, [("ratio", base_ratio + 0.8), ("threshold_db", -23)]),
        (.gate, [("threshold_db", gate_threshold - 3)]),
        (.saturator, [("mix", min (base_sat + 0.08) 0.9)])] },
   { variant := "wide",
     score := 0.72 + profile_gain + features.band_energy_high * 0.09,
     param_updates :=
       [(.eq, [("high_gain_db", base_eq_high + 0.7)]),
        (.compressor, [("ratio", max (base_ratio - 0.7) 1.2), ("threshold_db", -18)]),
        (.gate, [("threshold_db", gate_threshold + 4)]),
        (.saturator, [("mix", max (base_sat - 0.06) 0.02)])] }]

/-- Loop of `suggest_from_features` turning the ranked candidates into
`Suggestion` records.  The per-candidate `uuid4` is modelled by an index
counter, and the `.1f`/`.3f` decimal formatting inside the reason string is
abbreviated by `toString`; no claim depends on either rendering. -/
def mkRuleSuggestions (track_id : String) (profile : MixProfile) (role : String)
    (features : TrackFeatures ℚ) : Nat → List Candidate → List Suggestion
  | _, [] => []
  | n, c :: cs =>
    { suggestion_id := "rule-" ++ toString n,
      track_id := track_id, profile := profile, variant := c.variant,
      score := round4 c.score,
      reason := "profile=" ++ profile.text ++ ", role=" ++ role ++
        ", centroid=" ++ toString features.spectral_centroid_hz ++
        ", transient=" ++ toString features.transient_density ++
        ", lra=" ++ toString features.loudness_range_db,
      param_updates := c.param_updates } :: mkRuleSuggestions track_id profile role features (n + 1) cs

/-- The `suggest_from_features` generator of `mixing/suggestions.py`:
build the three variants, sort them by score descending (Python's stable
`list.sort(reverse=True)` modelled by insertion sort on the reversed
order), keep the first three and emit `Suggestion` records with rounded
scores. -/
def suggest_from_features (track_id : String) (profile : MixProfile)
    (features : TrackFeatures ℚ) : List Suggestion :=
  let role := infer_role features
  let variants := build_variants profile role features
  let sorted := List.insertionSort candScoreDesc variants
  mkRuleSuggestions track_id profile role features 0 (sorted.take 3)

/-- JSON values decoded from the remote suggestion response. -/
inductive JValue where
  | null
  | jbool (b : Bool)
  | num (q : ℚ)
  | str (s : String)
  | arr (items : List JValue)
  | obj (fields : List (String × JValue))

/-- The `BuiltinEffectType(effect_name.strip().lower())` conversion inside
`_parse_param_updates`: unknown names yield `none`. -/
def effectTypeOfString (s : String) : Option BuiltinEffectType :=
  match s.trim.toLower with
  | "eq" => some .eq
  | "compressor" => some .compressor
  | "gate" => some .gate
  | "saturator" => some .saturator
  | _ => none

/-- The `_parse_param_updates` filter of `mixing/suggestion_engine.py`:
unknown effect kinds, non-dict parameter maps and non-numeric values are
dropped; a Python `bool` passes the `isinstance(value, (int, float))` test
and coerces to 1.0/0.0.  Effects whose surviving parameter map is empty
are dropped. -/
def parse_param_updates (raw : Option JValue) :
    List (BuiltinEffectType × List (String × ℚ)) :=
  match raw with
  | some (.obj kvs) =>
    kvs.filterMap fun p =>
      match effectTypeOfString p.1, p.2 with
      | some et, .obj pkvs =>
        let eps := pkvs.filterMap fun q =>
          match q.2 with
          | .num v => some (q.1, v)
          | .jbool b => some (q.1, if b then (1 : ℚ) else 0)
          | _ => none
        if eps.isEmpty then none else some (et, eps)
      | _, _ => none
  | _ => []

/-- Python truthiness of a decoded JSON value. -/
def pyFalsy : JValue → Bool
  | .null => true
  | .jbool b => !b
  | .num q => q == 0
  | .str s => s == ""
  | .arr items => items.isEmpty
  | .obj fields => fields.isEmpty

/-- Python `str(...)` of a decoded JSON value: exact for strings; the
renderings of numerals, booleans, `None` and containers are abbreviated
(no claim depends on them). -/
def pyStr : JValue → String
  | .null => "None"
  | .jbool true => "True"
  | .jbool false => "False"
  | .num q => toString q
  | .str s => s
  | .arr _ => "list"
  | .obj _ => "dict"

/-- Model of `str(raw.get(key) or default)`. -/
def strOrDefault (v : Option JValue) (d : String) : String :=
  match v with
  | none => d
  | some v => if pyFalsy v then d else pyStr v

/-- Model of `float(raw.get("score", 0.0))` with its
`except (TypeError, ValueError): 0.0` handler: numbers pass through,
booleans coerce to 1.0/0.0, everything else (including the rare numeric
string) falls to the handler's 0.0. -/
def scoreOfJson : Option JValue → ℚ
  | some (.num q) => q
  | some (.jbool b) => if b then 1 else 0
  | _ => 0

/-- One iteration of the candidate loop in `_parse_llm_response`:
non-dict candidates and candidates with no usable parameter updates are
dropped. -/
def parseCandidate (track_id : String) (profile : MixProfile) (raw : JValue) :
    Option Suggestion :=
  match raw with
  | .obj kvs =>
    let pu := parse_param_updates (aget "param_updates" kvs)
    if pu.isEmpty then none
    else some
      { suggestion_id := "",
        track_id := track_id, profile := profile,
        variant := strOrDefault (aget "variant" kvs) "llm",
        score := scoreOfJson (aget "score" kvs),
        reason := strOrDefault (aget "reason" kvs) "llm-generated",
        param_updates := pu }
  | _ => none

/-- Per-candidate `uuid4` of `_parse_llm_response`, modelled by an index
counter. -/
def setIds : Nat → List Suggestion → List Suggestion
  | _, [] => []
  | n, sg :: rest => { sg with suggestion_id := "llm-" ++ toString n } :: setIds (n + 1) rest

/-- The `_parse_llm_response` function of `mixing/suggestion_engine.py`:
filter the candidates, sort by score descending, cap at three. -/
def parse_llm_response (track_id : String) (profile : MixProfile)
    (payload : List (String × JValue)) : List Suggestion :=
  match aget "candidates" payload with
  | some (.arr raws) =>
    let cands := setIds 0 (raws.filterMap (parseCandidate track_id profile))
    (List.insertionSort scoreDesc cands).take 3
  | _ => []

/-- The `LLMSuggestionEngine.generate` method: errors when the endpoint is
unconfigured, when the transport fails (the `transport` argument models the
HTTP POST and JSON decode, errors carrying the exception text), when the
decoded response is not a JSON object, or when no valid candidate remains
after filtering. -/
def llmGenerate (endpoint : String) (transport : Except String JValue)
    (track_id : String) (profile : MixProfile) : Except String (List Suggestion) :=
  if endpoint = "" then .error "MUSIC_CREATE_LLM_ENDPOINT is not configured"
  else
    match transport with
    | .error e => .error ("LLM request failed: " ++ e)
    | .ok (.obj payload) =>
      if (parse_llm_response track_id profile payload).isEmpty then
        .error "LLM response contains no valid candidates"
      else .ok (parse_llm_response track_id profile payload)
    | .ok _ => .error "LLM response must be a JSON object"

/-- The `_format_fallback_reason` sanitizer of `mixing/service.py`:
`str(exc).strip().replace("\n", " ")`, defaulting to `llm_error` when empty
and truncating to 117 characters plus an ellipsis when longer than 120.
Strings are handled at the character-list level; `String.trim` models
Python's `str.strip()`. -/
def format_fallback_reason (msg : String) : String :=
  let t := msg.trim.data.map fun c => if c = '\n' then ' ' else c
  if t.isEmpty then "llm_error"
  else if 120 < t.length then String.mk (t.take 117) ++ "..."
  else String.mk t

/-- The `_generate_suggestions` dispatcher of `mixing/service.py`.  The
result carries the suggestion list together with the values recorded into
`_last_suggestion_source` and `_last_suggestion_fallback_reason`; the
outcome of `self._llm_suggester.generate(...)` is the `llm_result`
argument (exceptions carrying their `str(exc)` text). -/
def generate_suggestions (mode : SuggestionEngineMode) (fallback_enabled : Bool)
    (llm_result : Except String (List Suggestion)) (track_id : String)
    (profile : MixProfile) (features : TrackFeatures ℚ) :
    Except String (List Suggestion × String × Option String) :=
  match mode with
  | .ruleBased => .ok (suggest_from_features track_id profile features, "rule-based", none)
  | .llmBased =>
    match llm_result with
    | .ok sugs => .ok (sugs, "llm-based", none)
    | .error msg =>
      if fallback_enabled then
        let fbr := format_fallback_reason msg
        .ok ((suggest_from_features track_id profile features).map
              (fun sg => { sg with reason := sg.reason ++ " | fallback=" ++ fbr }),
             "rule-based-fallback", some fbr)
      else .error msg

/-- Suggestion list of a `_generate_suggestions` outcome (empty on error). -/
def resultSuggestions : Except String (List Suggestion × String × Option String) →
    List Suggestion
  | .ok r => r.1
  | .error _ => []

/-- Python's `max` over a sample list, as used on the (guarded non-empty)
`abs_samples` list; the empty case, unreachable behind the guard in
`extract_features`, returns 0. -/
noncomputable def pyMax : List ℝ → ℝ
  | [] => 0
  | x :: xs => xs.foldl max x

/-- The `_amp_to_db` helper of `mixing/analysis.py`. -/
noncomputable def amp_to_db (value : ℝ) : ℝ :=
  20 * Real.logb 10 (max value 1e-8)

/-- The `_percentile` helper of `mixing/analysis.py`: linear interpolation
between the two bracketing order statistics of the sorted values. -/
noncomputable def percentile (values : List ℝ) (p : ℤ) : ℝ :=
  if values.isEmpty then 0
  else
    let ordered := List.insertionSort (· ≤ ·) values
    let rank : ℝ := ((min (max p 0) 100 : ℤ) : ℝ) / 100 * ((ordered.length : ℝ) - 1)
    let lower := ⌊rank⌋
    let upper := ⌈rank⌉
    if lower = upper then ordered.getD lower.toNat 0
    else
      ordered.getD lower.toNat 0 +
        (rank - lower) * (ordered.getD upper.toNat 0 - ordered.getD lower.toNat 0)

/-- The `_transient_density` helper: fraction of adjacent-sample deltas of
magnitude at least the threshold. -/
noncomputable def transient_density (signal : List ℝ) (threshold : ℝ) : ℝ :=
  if signal.length < 2 then 0
  else
    (((signal.zip signal.tail).countP fun pr => decide (threshold ≤ |pr.2 - pr.1|) : ℕ) : ℝ) /
      ((signal.length : ℝ) - 1)

/-- The `_zero_crossing_rate` helper: fraction of adjacent-sample sign
changes. -/
noncomputable def zero_crossing_rate (signal : List ℝ) : ℝ :=
  if signal.length < 2 then 0
  else
    (((signal.zip signal.tail).countP fun pr =>
        decide ((pr.1 < 0 ∧ 0 ≤ pr.2) ∨ (0 < pr.1 ∧ pr.2 ≤ 0)) : ℕ) : ℝ) /
      ((signal.length : ℝ) - 1)

/-- Sum of the Python stride slice `l[off::3]` (elements whose index is
congruent to `off` mod 3). -/
noncomputable def strideSum (l : List ℝ) (off : ℕ) : ℝ :=
  ((l.enum.filter fun pr => pr.1 % 3 == off).map (·.2)).sum

/-- The fixed floor feature vector returned by `extract_features` for an
empty signal. -/
def floorFeatures : TrackFeatures ℝ :=
  { lufs := -70, peak_dbfs := -70, rms_dbfs := -70, crest_factor_db := 0,
    spectral_centroid_hz := 0, band_energy_low := 0, band_energy_mid := 0,
    band_energy_high := 0, dynamic_range_db := 0, loudness_range_db := 0,
    transient_density := 0, zero_crossing_rate := 0 }

/-- The `_extract_quick` feature extraction of `mixing/analysis.py`. -/
noncomputable def extract_quick (signal : List ℝ) : TrackFeatures ℝ :=
  let abs_samples := signal.map (|·|)
  let peak := pyMax abs_samples
  let mean_square := (signal.map fun s => s * s).sum / (signal.length : ℝ)
  let rms := Real.sqrt mean_square
  let low_bucket := strideSum abs_samples 0
  let mid_bucket := strideSum abs_samples 1
  let high_bucket := strideSum abs_samples 2
  let bucket_sum :=
    if low_bucket + mid_bucket + high_bucket = 0 then 1
    else low_bucket + mid_bucket + high_bucket
  let centroid := (90 * low_bucket + 1200 * mid_bucket + 6500 * high_bucket) / bucket_sum
  let percentile_95 := percentile abs_samples 95
  let percentile_10 := percentile abs_samples 10
  let dynamic_range := amp_to_db percentile_95 - amp_to_db (max percentile_10 1e-8)
  let peak_db := amp_to_db peak
  let rms_db := amp_to_db (max rms 1e-8)
  { lufs := rms_db - 1,
    peak_dbfs := peak_db,
    rms_dbfs := rms_db,
    crest_factor_db := peak_db - rms_db,
    spectral_centroid_hz := centroid,
    band_energy_low := low_bucket / bucket_sum,
    band_energy_mid := mid_bucket / bucket_sum,
    band_energy_high := high_bucket / bucket_sum,
    dynamic_range_db := dynamic_range,
    loudness_range_db := dynamic_range * 0.75,
    transient_density := transient_density signal 0.06,
    zero_crossing_rate := zero_crossing_rate signal }

/-- One step of the `_full_band_energies` one-pole decomposition loop,
carrying `(lp, low_energy, mid_energy, high_energy)`. -/
noncomputable def full_band_step (acc : ℝ × ℝ × ℝ × ℝ) (sample : ℝ) : ℝ × ℝ × ℝ × ℝ :=
  let lp := 0.97 * acc.1 + 0.03 * sample
  let hp := sample - lp
  let mp := sample - lp - hp * 0.4
  (lp, acc.2.1 + |lp|, acc.2.2.1 + |mp|, acc.2.2.2 + |hp|)

/-- The `_full_band_energies` helper of `mixing/analysis.py`. -/
noncomputable def full_band_energies (signal : List ℝ) : ℝ × ℝ × ℝ :=
  let r := signal.foldl full_band_step (0, 0, 0, 0)
  (r.2.1, r.2.2.1, r.2.2.2)

/-- The `_frame_rms` slicing loop at the only used frame size of 1024
samples. -/
noncomputable def frame_rms_go : List ℝ → List ℝ
  | [] => []
  | x :: xs =>
    let frame := x :: xs.take 1023
    let energy := (frame.map fun s => s * s).sum / (frame.length : ℝ)
    max (Real.sqrt energy) 1e-8 :: frame_rms_go (xs.drop 1023)
  termination_by l => l.length
  decreasing_by simp [List.length_drop]; omega

/-- The `_frame_rms` helper of `mixing/analysis.py` (frame size 1024): the
`values or [1e-8]` fallback covers the empty signal. -/
noncomputable def frame_rms (signal : List ℝ) : List ℝ :=
  let values := frame_rms_go signal
  if values.isEmpty then [1e-8] else values

/-- The `_extract_full` feature extraction of `mixing/analysis.py`. -/
noncomputable def extract_full (signal : List ℝ) : TrackFeatures ℝ :=
  let abs_samples := signal.map (|·|)
  let peak := pyMax abs_samples
  let mean_square := (signal.map fun s => s * s).sum / (signal.length : ℝ)
  let rms := Real.sqrt mean_square
  let bands := full_band_energies signal
  let low_bucket := bands.1
  let mid_bucket := bands.2.1
  let high_bucket := bands.2.2
  let bucket_sum :=
    if low_bucket + mid_bucket + high_bucket = 0 then 1
    else low_bucket + mid_bucket + high_bucket
  let centroid := (120 * low_bucket + 1500 * mid_bucket + 8000 * high_bucket) / bucket_sum
  let percentile_95 := percentile abs_samples 95
  let percentile_10 := percentile abs_samples 10
  let dynamic_range := amp_to_db percentile_95 - amp_to_db (max percentile_10 1e-8)
  let frames := frame_rms signal
  let loudness_range :=
    amp_to_db (percentile frames 95) - amp_to_db (max (percentile frames 10) 1e-8)
  let peak_db := amp_to_db peak
  let rms_db := amp_to_db (max rms 1e-8)
  { lufs := rms_db - 0.5,
    peak_dbfs := peak_db,
    rms_dbfs := rms_db,
    crest_factor_db := peak_db - rms_db,
    spectral_centroid_hz := centroid,
    band_energy_low := low_bucket / bucket_sum,
    band_energy_mid := mid_bucket / bucket_sum,
    band_energy_high := high_bucket / bucket_sum,
    dynamic_range_db := dynamic_range,
    loudness_range_db := loudness_range,
    transient_density := transient_density signal 0.04,
    zero_crossing_rate := zero_crossing_rate signal }

/-- The `extract_features` dispatcher of `mixing/analysis.py`: empty
signals yield the fixed floor vector, otherwise the mode selects the
quick or the full extraction. -/
noncomputable def extract_features (signal : List ℝ) (mode : AnalysisMode) :
    TrackFeatures ℝ :=
  if signal.isEmpty then floorFeatures
  else
    match mode with
    | .quick => extract_quick signal
    | .full => extract_full signal

/-- The `run_analysis` job body of `mixing/analysis.py`: the per-track
feature map that the analysis future resolves to and `get_snapshot`
returns (the opaque `analysis_id` and `created_at` timestamp are
omitted). -/
noncomputable def run_analysis (mode : AnalysisMode)
    (track_signals : List (String × List ℝ)) : List (String × TrackFeatures ℝ) :=
  track_signals.map fun p => (p.1, extract_features p.2 mode)

/-- The `_db_to_gain` helper of `audio/mix_render.py`. -/
noncomputable def db_to_gain (db : ℝ) : ℝ :=
  (10 : ℝ) ^ (db / 20)

/-- The `_one_pole_alpha` helper of `audio/mix_render.py`. -/
noncomputable def one_pole_alpha (cutoff_hz : ℝ) (sample_rate : ℕ) : ℝ :=
  if cutoff_hz ≤ 0 ∨ sample_rate = 0 then 0
  else Real.exp (-2 * Real.pi * cutoff_hz / (sample_rate : ℝ))

/-- The `_time_coeff` helper of `audio/mix_render.py`. -/
noncomputable def time_coeff (time_ms : ℝ) (sample_rate : ℕ) : ℝ :=
  if time_ms ≤ 0 ∨ sample_rate = 0 then 0
  else Real.exp (-1 / (time_ms * 0.001 * (sample_rate : ℝ)))

/-- The `_clip` helper of `audio/mix_render.py`. -/
noncomputable def clip (value : ℝ) : ℝ :=
  if 1 < value then 1 else if value < -1 then -1 else value

/-- The spec-default lookup `defaults.get(param_id)` used by the activity
tests of `audio/mix_render.py`. -/
def spec_default (α : Type) [LinearOrderedField α] (et : BuiltinEffectType)
    (pid : String) : Option α :=
  ((EFFECT_SPECS α et).find? fun ps => ps.param_id == pid).map (·.default)

/-- The `_effect_active` test of `audio/mix_render.py`: some parameter of
the effect differs from its spec default by more than epsilon (missing
chain entries fall back to the default). -/
def effect_active (et : BuiltinEffectType) (params : List (String × ℝ)) : Prop :=
  ∃ ps ∈ EFFECT_SPECS ℝ et, 1e-6 < |(aget ps.param_id params).getD ps.default - ps.default|

/-- The `is_track_processing_active` test of `audio/mix_render.py`: any
gain, pan or chain parameter away from its silence default by more than
epsilon; a chain parameter unknown to the spec also counts as active. -/
def is_track_processing_active (track : MixerTrackState ℝ) : Prop :=
  1e-6 < |track.input_gain_db| ∨ 1e-6 < |track.fader_db| ∨ 1e-6 < |track.pan| ∨
    ∃ et : BuiltinEffectType, ∃ p ∈ (getEffect track.fx_chain et).parameters,
      spec_default ℝ et p.1 = none ∨
        ∃ d, spec_default ℝ et p.1 = some d ∧ 1e-6 < |p.2 - d|

/-- The `_WaveBuffer` record of `audio/mix_render.py`. -/
structure WaveBuffer where
  sample_rate : ℕ
  channels : ℕ
  sample_width : ℕ
  frame_count : ℕ
  samples : List (List ℝ)

/-- Loop of `_apply_eq`: two one-pole low-pass states split each sample
into three bands which are rescaled and summed. -/
noncomputable def applyEqGo (low_alpha high_alpha low_gain mid_gain high_gain : ℝ) :
    ℝ → ℝ → List ℝ → List ℝ
  | _, _, [] => []
  | ls, hs, x :: xs =>
    let ls2 := (1 - low_alpha) * x + low_alpha * ls
    let hs2 := (1 - high_alpha) * x + high_alpha * hs
    let low := ls2
    let high := x - hs2
    let mid := x - low - high
    (low * low_gain + mid * mid_gain + high * high_gain) ::
      applyEqGo low_alpha high_alpha low_gain mid_gain high_gain ls2 hs2 xs

/-- The `_apply_eq` stage of `audio/mix_render.py`. -/
noncomputable def apply_eq (samples : List ℝ) (sample_rate : ℕ)
    (params : List (String × ℝ)) : List ℝ :=
  let low_gain := db_to_gain ((aget "low_gain_db" params).getD 0)
  let mid_gain := db_to_gain ((aget "mid_gain_db" params).getD 0)
  let high_gain := db_to_gain ((aget "high_gain_db" params).getD 0)
  let low_freq := max 20 ((aget "low_freq_hz" params).getD 120)
  let high_freq := max (low_freq + 10) ((aget "high_freq_hz" params).getD 5000)
  applyEqGo (one_pole_alpha low_freq sample_rate) (one_pole_alpha high_freq sample_rate)
    low_gain mid_gain high_gain 0 0 samples

/-- Loop of `_apply_compressor`: envelope follower with attack/release
coefficient selection and dB-domain gain reduction above threshold. -/
noncomputable def applyCompGo (threshold_db threshold_lin att rel makeup rat : ℝ) :
    ℝ → List ℝ → List ℝ
  | _, [] => []
  | env, x :: xs =>
    let level := |x| + 1e-12
    let coeff := if env < level then att else rel
    let env2 := coeff * env + (1 - coeff) * level
    let gain :=
      if env2 ≤ threshold_lin ∨ threshold_lin ≤ 0 then 1
      else
        let env_db := 20 * Real.logb 10 env2
        let over_db := max 0 (env_db - threshold_db)
        db_to_gain (-(over_db - over_db / rat))
    (x * gain * makeup) :: applyCompGo threshold_db threshold_lin att rel makeup rat env2 xs

/-- The `_apply_compressor` stage of `audio/mix_render.py`. -/
noncomputable def apply_compressor (samples : List ℝ) (sample_rate : ℕ)
    (params : List (String × ℝ)) : List ℝ :=
  let threshold_db := (aget "threshold_db" params).getD (-18)
  let rat := max 1 ((aget "ratio" params).getD 3)
  let attack_ms := max 0.1 ((aget "attack_ms" params).getD 12)
  let release_ms := max 0.1 ((aget "release_ms" params).getD 120)
  let makeup := db_to_gain ((aget "makeup_db" params).getD 0)
  applyCompGo threshold_db (db_to_gain threshold_db) (time_coeff attack_ms sample_rate)
    (time_coeff release_ms sample_rate) makeup rat 0 samples

/-- Loop of `_apply_gate`: the envelope follower drives a hard 0/1 target
smoothed through the same attack/release one-pole. -/
noncomputable def applyGateGo (threshold att rel : ℝ) : ℝ → ℝ → List ℝ → List ℝ
  | _, _, [] => []
  | env, gate_v, x :: xs =>
    let level := |x|
    let coeff := if env < level then att else rel
    let env2 := coeff * env + (1 - coeff) * level
    let target : ℝ := if threshold ≤ env2 then 1 else 0
    let smooth := if gate_v < target then att else rel
    let gate2 := smooth * gate_v + (1 - smooth) * target
    (x * gate2) :: applyGateGo threshold att rel env2 gate2 xs

/-- The `_apply_gate` stage of `audio/mix_render.py`. -/
noncomputable def apply_gate (samples : List ℝ) (sample_rate : ℕ)
    (params : List (String × ℝ)) : List ℝ :=
  let threshold := db_to_gain ((aget "threshold_db" params).getD (-40))
  let att := time_coeff (max 0.1 ((aget "attack_ms" params).getD 2)) sample_rate
  let rel := time_coeff (max 0.1 ((aget "release_ms" params).getD 120)) sample_rate
  applyGateGo threshold att rel 0 0 samples

/-- The `_apply_saturator` stage of `audio/mix_render.py`. -/
noncomputable def apply_saturator (samples : List ℝ) (params : List (String × ℝ)) :
    List ℝ :=
  let drive := min (max ((aget "drive" params).getD 0) 0) 1
  let mix := min (max ((aget "mix" params).getD 0) 0) 1
  if mix ≤ 1e-6 then samples
  else
    let shape := 1 + drive * 8
    let normalizer := Real.tanh shape
    if |normalizer| ≤ 1e-6 then samples
    else samples.map fun x => x + (Real.tanh (x * shape) / normalizer - x) * mix

/-- The `_apply_output_gain_and_pan` stage: fader gain on a mono buffer;
constant-power pan on the first two of several channels, fader gain only on
the rest. -/
noncomputable def apply_output_gain_and_pan (samples : List (List ℝ))
    (track : MixerTrackState ℝ) : List (List ℝ) :=
  let og := db_to_gain track.fader_db
  match samples with
  | [] => []
  | [ch] => [ch.map fun v => v * og]
  | ch0 :: ch1 :: rest =>
    let pan := min (max track.pan (-1)) 1
    let angle := (pan + 1) * (Real.pi / 4)
    (ch0.map fun v => v * (Real.cos angle * og)) ::
      (ch1.map fun v => v * (Real.sin angle * og)) ::
      rest.map fun ch => ch.map fun v => v * og

open Classical in
/-- The `_process_track` pipeline of `audio/mix_render.py`: input gain,
then the four effect stages each gated by its own activity test, then the
output stage and the hard clip. -/
noncomputable def process_track (buffer : WaveBuffer) (track : MixerTrackState ℝ) :
    WaveBuffer :=
  let eqp := (getEffect track.fx_chain .eq).parameters
  let compp := (getEffect track.fx_chain .compressor).parameters
  let gatep := (getEffect track.fx_chain .gate).parameters
  let satp := (getEffect track.fx_chain .saturator).parameters
  let processed := buffer.samples.map fun channel =>
    let s0 := channel.map fun x => x * db_to_gain track.input_gain_db
    let s1 := if effect_active .eq eqp then apply_eq s0 buffer.sample_rate eqp else s0
    let s2 :=
      if effect_active .compressor compp then apply_compressor s1 buffer.sample_rate compp
      else s1
    let s3 := if effect_active .gate gatep then apply_gate s2 buffer.sample_rate gatep else s2
    if effect_active .saturator satp then apply_saturator s3 satp else s3
  let panned := apply_output_gain_and_pan processed track
  { buffer with samples := panned.map (List.map clip) }

open Classical in
/-- The `render_track_preview_wav` entry point of `audio/mix_render.py` at
the byte level: an inactive track state copies the source bytes verbatim;
an active one decodes, processes and re-encodes.  The `read_wav` and
`write_wav` arguments model the stdlib `wave` container parsing together
with the per-sample PCM decode/encode helpers; the path handling and
missing-file error of the source are filesystem concerns outside the
model. -/
noncomputable def render_track_preview_wav (read_wav : List UInt8 → WaveBuffer)
    (write_wav : WaveBuffer → List UInt8) (source_bytes : List UInt8)
    (track : MixerTrackState ℝ) : List UInt8 :=
  if is_track_processing_active track then
    write_wav (process_track (read_wav source_bytes) track)
  else source_bytes

namespace MixingService

/-- One transactional operation of the service layer, for statements about
operation sequences. -/
inductive MixOp where
  | previewOp (track_id suggestion_id : String) (dry_wet : ℚ)
  | cancelOp (track_id : String)
  | applyOp (track_id suggestion_id : String)
  | revertOp (command_id : String)
  deriving DecidableEq, Repr

/-- State reached after one operation (results and raised errors are
discarded; the state carries all mutations up to a raise). -/
def step (s : State) : MixOp → State
  | .previewOp t sid dw => (preview s t sid dw).2
  | .cancelOp t => cancel_preview s t
  | .applyOp t sid => (apply s t sid).2
  | .revertOp cid => (revert s cid).2

/-- State reached after a sequence of operations. -/
def runOps (s : State) (ops : List MixOp) : State :=
  ops.foldl step s

/-- Every parameter of one effect's dict is known to the registry and lies
within its spec bounds. -/
def paramsInRange (et : BuiltinEffectType) (params : List (String × ℚ)) : Prop :=
  ∀ p ∈ params, ∃ ps ∈ EFFECT_SPECS ℚ et,
    ps.param_id = p.1 ∧ ps.minimum ≤ p.2 ∧ p.2 ≤ ps.maximum

/-- Every parameter of every effect of a chain lies within its registry
bounds. -/
def chainInRange (c : BuiltinFXChainState ℚ) : Prop :=
  paramsInRange .eq c.eq_fx.parameters ∧
    paramsInRange .compressor c.compressor_fx.parameters ∧
    paramsInRange .gate c.gate_fx.parameters ∧
    paramsInRange .saturator c.saturator_fx.parameters

/-- Invariant over the service state: all live chains, all preview
baselines and all command snapshots are within registry bounds. -/
def Inv (s : State) : Prop :=
  (∀ p ∈ s.mixer_graph.tracks, chainInRange p.2.fx_chain) ∧
    (∀ p ∈ s.preview_cache, chainInRange p.2) ∧
    (∀ p ∈ s.commands, chainInRange p.2.before_chain ∧ chainInRange p.2.after_chain)

instance (et : BuiltinEffectType) (params : List (String × ℚ)) :
    Decidable (paramsInRange et params) := by
  unfold paramsInRange
  infer_instance

instance (c : BuiltinFXChainState ℚ) : Decidable (chainInRange c) := by
  unfold chainInRange
  infer_instance

instance (s : State) : Decidable (Inv s) := by
  unfold Inv
  infer_instance

end MixingService

/-- Concrete suggestion for track `t` raising the EQ high shelf, used by
the concrete scenario states below. -/
def sugT : Suggestion :=
  { suggestion_id := "s1", track_id := "t", profile := .clean,
    variant := "balanced", score := 1, reason := "base",
    param_updates := [(.eq, [("high_gain_db", 5)])] }

/-- Concrete suggestion stored for track `a`, used for the cross-track
mismatch scenario. -/
def sugA : Suggestion :=
  { sugT with suggestion_id := "s2", track_id := "a" }

/-- Concrete service state: one default track `t`, suggestion `s1` stored
for it, suggestion `s2` stored for track `a`, empty history and no pending
preview. -/
def st0 : MixingService.State :=
  { mixer_graph := { tracks := [("t", defaultTrack ℚ "t")] },
    builtin_only := true,
    suggestions := [("s1", sugT), ("s2", sugA)],
    commands := [],
    command_order := [],
    preview_cache := [],
    next_command_id := 0 }

/-- All-zero feature vector at the suggestion-layer scalar type. -/
def zeroQFeatures : TrackFeatures ℚ :=
  { lufs := 0, peak_dbfs := 0, rms_dbfs := 0, crest_factor_db := 0,
    spectral_centroid_hz := 0, band_energy_low := 0, band_energy_mid := 0,
    band_energy_high := 0, dynamic_range_db := 0, loudness_range_db := 0,
    transient_density := 0, zero_crossing_rate := 0 }

/-- Decidable equality on `Except` results, for concrete evaluation. -/
instance {ε α : Type} [DecidableEq ε] [DecidableEq α] : DecidableEq (Except ε α) :=
  fun a b =>
    match a, b with
    | .ok x, .ok y =>
      if h : x = y then .isTrue (by rw [h]) else .isFalse fun hh => h (by cases hh; rfl)
    | .error x, .error y =>
      if h : x = y then .isTrue (by rw [h]) else .isFalse fun hh => h (by cases hh; rfl)
    | .ok _, .error _ => .isFalse fun hh => by cases hh
    | .error _, .ok _ => .isFalse fun hh => by cases hh

/-- Sequence of consecutive `preview` calls on one track (each call's
error, if any, is discarded; the state carries all mutations). -/
def runPreviews (s : MixingService.State) (t : String) (ps : List (String × ℚ)) :
    MixingService.State :=
  ps.foldl (fun st p => (MixingService.preview st t p.1 p.2).2) s

/-- Invariant tying a track's live state to its pre-preview snapshot `tr`:
either no baseline is cached and the track is untouched, or the cached
baseline is exactly `tr`'s chain and only the live chain has moved. -/
def previewInv (t : String) (tr : MixerTrackState ℚ) (s : MixingService.State) : Prop :=
  (aget t s.preview_cache = none ∧ aget t s.mixer_graph.tracks = some tr) ∨
    (aget t s.preview_cache = some tr.fx_chain ∧
      ∃ c, aget t s.mixer_graph.tracks = some { tr with fx_chain := c })

lemma effect_specs_ids_nodup (et : BuiltinEffectType) :
    ((EFFECT_SPECS ℚ et).map (·.param_id)).Nodup := by
  cases et <;> decide

lemma effect_specs_min_le_max (et : BuiltinEffectType) :
    ∀ ps ∈ EFFECT_SPECS ℚ et, ps.minimum ≤ ps.maximum := by
  cases et <;> with_unfolding_all decide

lemma clamp_scan_found (v : ℚ) (l : List (ParameterSpec ℚ)) (ps : ParameterSpec ℚ)
    (hmem : ps ∈ l) (hnd : (l.map (·.param_id)).Nodup) :
    clamp_scan ps.param_id v l = .ok (min (max v ps.minimum) ps.maximum) := by
  induction l with
  | nil => exact absurd hmem (List.not_mem_nil ps)
  | cons q rest ih =>
    simp only [List.map_cons, List.nodup_cons] at hnd
    rcases List.mem_cons.mp hmem with h | h
    · subst h
      simp [clamp_scan]
    · have hne : ¬ q.param_id = ps.param_id := fun he =>
        hnd.1 (he ▸ List.mem_map_of_mem (·.param_id) h)
      simp only [clamp_scan, if_neg hne]
      exact ih h hnd.2

lemma clamp_scan_not_found (v : ℚ) (pid : String) (l : List (ParameterSpec ℚ))
    (h : ∀ q ∈ l, q.param_id ≠ pid) :
    clamp_scan pid v l = .error (.keyError ("Unknown parameter " ++ pid ++ " for effect")) := by
  induction l with
  | nil => rfl
  | cons q rest ih =>
    simp only [clamp_scan, if_neg (h q (List.mem_cons_self q rest))]
    exact ih fun q2 hq2 => h q2 (List.mem_cons_of_mem q hq2)

/-- C6: for every built-in effect kind and every parameter of its spec,
`clamp_param` succeeds with a result inside `[minimum, maximum]`, is the
identity on values already inside the range, and fails with an
unknown-parameter `KeyError` for a parameter id outside the spec. -/
theorem spec_c6_clamp_param (et : BuiltinEffectType) (ps : ParameterSpec ℚ)
    (hmem : ps ∈ EFFECT_SPECS ℚ et) (v : ℚ) (pid : String)
    (hunknown : ∀ q ∈ EFFECT_SPECS ℚ et, q.param_id ≠ pid) :
    clamp_param et ps.param_id v = .ok (min (max v ps.minimum) ps.maximum) ∧
      ps.minimum ≤ min (max v ps.minimum) ps.maximum ∧
      min (max v ps.minimum) ps.maximum ≤ ps.maximum ∧
      (ps.minimum ≤ v → v ≤ ps.maximum → min (max v ps.minimum) ps.maximum = v) ∧
      clamp_param et pid v =
        .error (.keyError ("Unknown parameter " ++ pid ++ " for effect")) := by
  have hmm := effect_specs_min_le_max et ps hmem
  refine ⟨clamp_scan_found v _ ps hmem (effect_specs_ids_nodup et),
    le_min (le_max_right v ps.minimum) hmm, min_le_right _ _, ?_,
    clamp_scan_not_found v pid _ hunknown⟩
  intro h1 h2
  rw [max_eq_left h1, min_eq_left h2]

/-- Witness for C6 at the compressor ratio spec and an out-of-spec id. -/
theorem spec_c6_witness :
    clamp_param .compressor "ratio" (25 : ℚ) = .ok (min (max (25 : ℚ) 1) 20) ∧
      (1 : ℚ) ≤ min (max (25 : ℚ) 1) 20 ∧
      min (max (25 : ℚ) 1) 20 ≤ (20 : ℚ) ∧
      ((1 : ℚ) ≤ 25 → (25 : ℚ) ≤ 20 → min (max (25 : ℚ) 1) 20 = 25) ∧
      clamp_param .compressor "bogus" (25 : ℚ) =
        .error (.keyError ("Unknown parameter " ++ "bogus" ++ " for effect")) :=
  spec_c6_clamp_param .compressor ⟨"ratio", 3, 1, 20⟩ (by decide) 25 "bogus" (by decide)

lemma min_max_clamp_idem (dw : ℚ) :
    min (max (min (max dw 0) 1) 0) 1 = min (max dw 0) 1 := by
  have h0 : (0 : ℚ) ≤ min (max dw 0) 1 := le_min (le_max_right dw 0) zero_le_one
  rw [max_eq_left h0, min_eq_left (min_le_right (max dw 0) 1)]

lemma apply_param_updates_norm (c : BuiltinFXChainState ℚ)
    (u : List (BuiltinEffectType × List (String × ℚ))) (dw : ℚ) :
    MixingService.apply_param_updates c u dw =
      MixingService.apply_param_updates c u (min (max dw 0) 1) := by
  unfold MixingService.apply_param_updates
  rw [min_max_clamp_idem]

lemma preview_dry_wet_congr (s : MixingService.State) (t sid : String) {dw dw' : ℚ}
    (h : ∀ c u, MixingService.apply_param_updates c u dw =
      MixingService.apply_param_updates c u dw') :
    MixingService.preview s t sid dw = MixingService.preview s t sid dw' := by
  unfold MixingService.preview
  simp only [h]

/-- C10: `preview` and the parameter blend accept any `dry_wet` without
error: the blend factor is clamped into `[0, 1]`, so any `dry_wet` behaves
exactly like its clamped value (below 0 like 0, above 1 like 1). -/
theorem spec_c10_dry_wet_clamped (s : MixingService.State) (t sid : String) (dw : ℚ)
    (c : BuiltinFXChainState ℚ) (u : List (BuiltinEffectType × List (String × ℚ))) :
    MixingService.preview s t sid dw =
        MixingService.preview s t sid (min (max dw 0) 1) ∧
      MixingService.apply_param_updates c u dw =
        MixingService.apply_param_updates c u (min (max dw 0) 1) :=
  ⟨preview_dry_wet_congr s t sid fun c' u' => apply_param_updates_norm c' u' dw,
   apply_param_updates_norm c u dw⟩

/-- Witness for C10 at a negative and an above-one blend factor. -/
theorem spec_c10_witness :
    (MixingService.preview st0 "t" "s1" (-2) =
        MixingService.preview st0 "t" "s1" (min (max (-2 : ℚ) 0) 1) ∧
      MixingService.apply_param_updates (default_fx_chain ℚ) sugT.param_updates (-2) =
        MixingService.apply_param_updates (default_fx_chain ℚ) sugT.param_updates
          (min (max (-2 : ℚ) 0) 1)) ∧
    MixingService.preview st0 "t" "s1" (3 : ℚ) =
      MixingService.preview st0 "t" "s1" (min (max (3 : ℚ) 0) 1) :=
  ⟨spec_c10_dry_wet_clamped st0 "t" "s1" (-2) (default_fx_chain ℚ) sugT.param_updates,
   (spec_c10_dry_wet_clamped st0 "t" "s1" 3 (default_fx_chain ℚ) sugT.param_updates).1⟩

/-- C8: with the builtin-only guard in place, a `preview` or `apply` whose
suggestion id is unknown fails with a not-found `KeyError`, and one whose
stored suggestion belongs to another track fails with a mismatch
`ValueError`; in both cases the state (hence every live FX chain) is left
unchanged. -/
theorem spec_c8_suggestion_lookup (s : MixingService.State) (hb : s.builtin_only = true)
    (t sid : String) (dw : ℚ) :
    (aget sid s.suggestions = none →
      MixingService.preview s t sid dw =
          (some (.keyError ("Suggestion " ++ sid ++ " not found")), s) ∧
        MixingService.apply s t sid =
          (.error (.keyError ("Suggestion " ++ sid ++ " not found")), s)) ∧
    (∀ sg, aget sid s.suggestions = some sg → sg.track_id ≠ t →
      MixingService.preview s t sid dw =
          (some (.valueError ("Suggestion " ++ sid ++ " belongs to track " ++
            sg.track_id ++ ", not " ++ t)), s) ∧
        MixingService.apply s t sid =
          (.error (.valueError ("Suggestion " ++ sid ++ " belongs to track " ++
            sg.track_id ++ ", not " ++ t)), s)) := by
  constructor
  · intro hnone
    constructor
    · simp [MixingService.preview, MixingService.get_suggestion, hb, hnone]
    · simp [MixingService.apply, MixingService.get_suggestion, hb, hnone]
  · intro sg hsome hne
    constructor
    · simp [MixingService.preview, MixingService.get_suggestion, hb, hsome, hne]
    · simp [MixingService.apply, MixingService.get_suggestion, hb, hsome, hne]

/-- Witness for C8: applying the track-`a` suggestion `s2` to track `t`
fails with the mismatch error and leaves the state unchanged. -/
theorem spec_c8_witness :
    MixingService.preview st0 "t" "s2" 1 =
        (some (.valueError ("Suggestion " ++ "s2" ++ " belongs to track " ++
          sugA.track_id ++ ", not " ++ "t")), st0) ∧
      MixingService.apply st0 "t" "s2" =
        (.error (.valueError ("Suggestion " ++ "s2" ++ " belongs to track " ++
          sugA.track_id ++ ", not " ++ "t")), st0) :=
  (spec_c8_suggestion_lookup st0 rfl "t" "s2" 1).2 sugA (by decide) (by decide)

@[simp] lemma clone_eq {α : Type} (c : BuiltinFXChainState α) : c.clone = c := rfl

lemma aget_amodify_self {β : Type} (k : String) (f : β → β) (l : List (String × β)) :
    aget k (amodify k f l) = (aget k l).map f := by
  induction l with
  | nil => rfl
  | cons p rest ih =>
    obtain ⟨k', v⟩ := p
    by_cases h : k' = k
    · simp [amodify, aget, h]
    · simp [amodify, aget, h, ih]

@[simp] lemma state_eta (s : MixingService.State) :
    ({ mixer_graph := s.mixer_graph, builtin_only := s.builtin_only,
       suggestions := s.suggestions, commands := s.commands,
       command_order := s.command_order, preview_cache := s.preview_cache,
       next_command_id := s.next_command_id } : MixingService.State) = s := rfl

lemma ensure_track_of_mem (g : MixerGraph) (t : String) (tr : MixerTrackState ℚ)
    (h : aget t g.tracks = some tr) : ensure_track g t = (tr, g) := by
  unfold ensure_track
  rw [h]

lemma cancel_preview_of_none (s : MixingService.State) (t : String)
    (h : aget t s.preview_cache = none) : MixingService.cancel_preview s t = s := by
  unfold MixingService.cancel_preview
  rw [h]

/-- C1 counterexample: with a preview pending on track `t` (`dry_wet` one
half, leaving the EQ high shelf at 5/2), `apply` then `revert` does not
restore the chain that was live immediately before the `apply` call — it
restores the pre-preview baseline instead. -/
theorem spec_c1_counterexample :
    (MixingService.apply (MixingService.preview st0 "t" "s1" (1 / 2)).2 "t" "s1").1 =
        .ok "cmd-0" ∧
      (MixingService.revert
          (MixingService.apply (MixingService.preview st0 "t" "s1" (1 / 2)).2 "t" "s1").2
          "cmd-0").1 = none ∧
      MixingService.track_chain
          (MixingService.revert
            (MixingService.apply (MixingService.preview st0 "t" "s1" (1 / 2)).2 "t" "s1").2
            "cmd-0").2 "t" ≠
        MixingService.track_chain (MixingService.preview st0 "t" "s1" (1 / 2)).2 "t" := by
  with_unfolding_all decide

/-- C1 (amended): for an existing track with no pending preview, a
successful `apply` followed by `revert` on the returned command id
succeeds and restores the track's live FX chain to deep equality with the
chain that was live immediately before the `apply` call.  (With a preview
pending, `apply` first cancels it, so `revert` restores the pre-preview
baseline instead — see the counterexample.) -/
theorem spec_c1_apply_revert (s : MixingService.State) (t sid : String)
    (tr : MixerTrackState ℚ)
    (htr : aget t s.mixer_graph.tracks = some tr)
    (hcache : aget t s.preview_cache = none)
    (cid : String)
    (happly : (MixingService.apply s t sid).1 = .ok cid) :
    (MixingService.revert (MixingService.apply s t sid).2 cid).1 = none ∧
      MixingService.track_chain
          (MixingService.revert (MixingService.apply s t sid).2 cid).2 t =
        some tr.fx_chain := by
  obtain ⟨g, bo, sgs, cmds, ord, pc, nid⟩ := s
  dsimp only at htr hcache
  cases bo with
  | false => simp [MixingService.apply] at happly
  | true =>
    cases hg : MixingService.get_suggestion ⟨g, true, sgs, cmds, ord, pc, nid⟩ sid t with
    | error e => simp [MixingService.apply, hg] at happly
    | ok sg =>
      cases hupd : MixingService.apply_param_updates tr.fx_chain sg.param_updates 1 with
      | error e =>
        simp [MixingService.apply, hg, ensure_track, htr,
          MixingService.cancel_preview, hcache, clone_eq, hupd] at happly
      | ok after =>
        simp only [MixingService.apply, hg, ensure_track, htr,
          MixingService.cancel_preview, hcache, clone_eq, if_true, hupd,
          Except.ok.injEq] at happly ⊢
        subst happly
        constructor
        · simp [MixingService.revert, aget]
        · simp [MixingService.revert, aget, MixingService.setChain,
            MixingService.track_chain, MixingService.cancel_preview, hcache,
            ensure_track, aget_amodify_self, htr]

set_option maxRecDepth 4000 in
/-- Witness for C1 (amended): applying suggestion `s1` to the fresh track
`t` of the concrete state and reverting the returned command restores the
default chain. -/
theorem spec_c1_witness :
    (MixingService.revert (MixingService.apply st0 "t" "s1").2 "cmd-0").1 = none ∧
      MixingService.track_chain
          (MixingService.revert (MixingService.apply st0 "t" "s1").2 "cmd-0").2 "t" =
        some (defaultTrack ℚ "t").fx_chain :=
  spec_c1_apply_revert st0 "t" "s1" (defaultTrack ℚ "t") (by decide) (by decide)
    "cmd-0" (by with_unfolding_all decide)

lemma aget_aremove_self {β : Type} (k : String) (l : List (String × β)) :
    aget k (aremove k l) = none := by
  induction l with
  | nil => rfl
  | cons p rest ih =>
    obtain ⟨k', v⟩ := p
    by_cases h : k' = k
    · simpa [aremove, List.filter_cons, h] using ih
    · simpa [aremove, List.filter_cons, aget, h] using ih

lemma preview_previewInv (s : MixingService.State) (t sid : String) (dw : ℚ)
    (tr : MixerTrackState ℚ) (h : previewInv t tr s) :
    previewInv t tr (MixingService.preview s t sid dw).2 := by
  obtain ⟨g, bo, sgs, cmds, ord, pc, nid⟩ := s
  cases bo with
  | false => simpa [MixingService.preview] using h
  | true =>
    cases hg : MixingService.get_suggestion ⟨g, true, sgs, cmds, ord, pc, nid⟩ sid t with
    | error e => simpa [MixingService.preview, hg] using h
    | ok sg =>
      rcases h with ⟨hc, htr⟩ | ⟨hc, c, htr⟩
      · dsimp only at hc htr
        cases hupd : MixingService.apply_param_updates tr.fx_chain sg.param_updates dw with
        | error e =>
          simp only [MixingService.preview, hg, if_true, ensure_track, htr, hc,
            clone_eq, hupd]
          exact Or.inr ⟨by simp [aget], tr.fx_chain, by simpa using htr⟩
        | ok updated =>
          simp only [MixingService.preview, hg, if_true, ensure_track, htr, hc,
            clone_eq, hupd, MixingService.setChain]
          exact Or.inr ⟨by simp [aget], updated, by simp [aget_amodify_self, htr]⟩
      · dsimp only at hc htr
        obtain ⟨c0, htr'⟩ : ∃ c0, aget t g.tracks = some c0 := ⟨_, htr⟩
        cases hupd : MixingService.apply_param_updates tr.fx_chain sg.param_updates dw with
        | error e =>
          simp only [MixingService.preview, hg, if_true, ensure_track, htr', hc,
            clone_eq, hupd]
          exact Or.inr ⟨hc, c, by simpa using htr⟩
        | ok updated =>
          simp only [MixingService.preview, hg, if_true, ensure_track, htr', hc,
            clone_eq, hupd, MixingService.setChain]
          refine Or.inr ⟨hc, updated, ?_⟩
          simp [aget_amodify_self, htr]

lemma runPreviews_previewInv (t : String) (tr : MixerTrackState ℚ)
    (ps : List (String × ℚ)) :
    ∀ s, previewInv t tr s → previewInv t tr (runPreviews s t ps) := by
  induction ps with
  | nil => exact fun s h => h
  | cons p rest ih =>
    intro s h
    exact ih _ (preview_previewInv s t p.1 p.2 tr h)

lemma cancel_preview_previewInv (s : MixingService.State) (t : String)
    (tr : MixerTrackState ℚ) (h : previewInv t tr s) :
    MixingService.track_chain (MixingService.cancel_preview s t) t = some tr.fx_chain ∧
      aget t (MixingService.cancel_preview s t).preview_cache = none := by
  rcases h with ⟨hc, htr⟩ | ⟨hc, c, htr⟩
  · rw [cancel_preview_of_none s t hc]
    exact ⟨by simp [MixingService.track_chain, htr], hc⟩
  · obtain ⟨g, bo, sgs, cmds, ord, pc, nid⟩ := s
    dsimp only at hc htr
    simp only [MixingService.cancel_preview, hc, ensure_track, htr,
      MixingService.setChain, MixingService.track_chain]
    constructor
    · simp [aget_amodify_self, htr]
    · exact aget_aremove_self t pc

lemma preview_blends_from_baseline (s : MixingService.State) (t sid : String) (dw : ℚ)
    (tr : MixerTrackState ℚ) (sg : Suggestion) (updated : BuiltinFXChainState ℚ)
    (h : previewInv t tr s) (hb : s.builtin_only = true)
    (hsg : aget sid s.suggestions = some sg) (htid : sg.track_id = t)
    (hupd : MixingService.apply_param_updates tr.fx_chain sg.param_updates dw = .ok updated) :
    MixingService.track_chain (MixingService.preview s t sid dw).2 t = some updated := by
  obtain ⟨g, bo, sgs, cmds, ord, pc, nid⟩ := s
  dsimp only at hb hsg
  subst hb
  have hg : MixingService.get_suggestion ⟨g, true, sgs, cmds, ord, pc, nid⟩ sid t =
      .ok sg := by
    simp [MixingService.get_suggestion, hsg, htid]
  rcases h with ⟨hc, htr⟩ | ⟨hc, c, htr⟩
  · dsimp only at hc htr
    simp only [MixingService.preview, hg, if_true, ensure_track, htr, hc, clone_eq,
      hupd, MixingService.setChain, MixingService.track_chain]
    simp [aget_amodify_self, htr]
  · dsimp only at hc htr
    obtain ⟨c0, htr'⟩ : ∃ c0, aget t g.tracks = some c0 := ⟨_, htr⟩
    simp only [MixingService.preview, hg, if_true, ensure_track, htr', hc, clone_eq,
      hupd, MixingService.setChain, MixingService.track_chain]
    simp [aget_amodify_self, htr]

/-- C2: starting from an existing track with no pending preview, any
non-empty run of consecutive `preview` calls on that track followed by
`cancel_preview` restores the live FX chain to deep equality with the
pre-preview chain (and clears the baseline); moreover after any such run a
further `preview` still blends from that same original baseline (never
from an already-previewed chain), so previews never compound. -/
theorem spec_c2_preview_cancel (s : MixingService.State) (t : String)
    (tr : MixerTrackState ℚ)
    (htr : aget t s.mixer_graph.tracks = some tr)
    (hcache : aget t s.preview_cache = none)
    (ps : List (String × ℚ)) (hps : ps ≠ []) :
    MixingService.track_chain
        (MixingService.cancel_preview (runPreviews s t ps) t) t = some tr.fx_chain ∧
      aget t (MixingService.cancel_preview (runPreviews s t ps) t).preview_cache = none ∧
      (∀ sid sg dw updated,
        aget sid (runPreviews s t ps).suggestions = some sg → sg.track_id = t →
        (runPreviews s t ps).builtin_only = true →
        MixingService.apply_param_updates tr.fx_chain sg.param_updates dw = .ok updated →
        MixingService.track_chain (MixingService.preview (runPreviews s t ps) t sid dw).2 t =
          some updated) := by
  have hInv : previewInv t tr (runPreviews s t ps) :=
    runPreviews_previewInv t tr ps s (Or.inl ⟨hcache, htr⟩)
  obtain ⟨h1, h2⟩ := cancel_preview_previewInv _ t tr hInv
  exact ⟨h1, h2, fun sid sg dw updated hsg htid hb hupd =>
    preview_blends_from_baseline _ t sid dw tr sg updated hInv hb hsg htid hupd⟩

set_option maxRecDepth 4000 in
/-- Witness for C2: two stacked previews of `s1` on the concrete state,
then `cancel_preview`, restore the default chain and clear the baseline. -/
theorem spec_c2_witness :
    MixingService.track_chain
        (MixingService.cancel_preview (runPreviews st0 "t" [("s1", 1 / 2), ("s1", 3 / 4)]) "t")
        "t" = some (defaultTrack ℚ "t").fx_chain ∧
      aget "t"
        (MixingService.cancel_preview (runPreviews st0 "t" [("s1", 1 / 2), ("s1", 3 / 4)]) "t").preview_cache =
        none := by
  have h := spec_c2_preview_cancel st0 "t" (defaultTrack ℚ "t") (by decide) (by decide)
    [("s1", 1 / 2), ("s1", 3 / 4)] (by decide)
  exact ⟨h.1, h.2.1⟩

lemma aget_mem {β : Type} (k : String) (l : List (String × β)) (v : β)
    (h : aget k l = some v) : (k, v) ∈ l := by
  induction l with
  | nil => cases h
  | cons p rest ih =>
    obtain ⟨k', v'⟩ := p
    by_cases hk : k' = k
    · subst hk
      simp [aget] at h
      subst h
      exact List.mem_cons_self _ _
    · simp [aget, hk] at h
      exact List.mem_cons_of_mem _ (ih h)

lemma mem_aset {β : Type} (k : String) (v : β) (l : List (String × β))
    (p : String × β) (hp : p ∈ aset k v l) : p ∈ l ∨ p = (k, v) := by
  induction l with
  | nil => cases hp
  | cons q rest ih =>
    obtain ⟨k', v'⟩ := q
    by_cases h : k' = k
    · subst h
      simp only [aset, if_pos rfl] at hp
      rcases List.mem_cons.mp hp with hh | hh
      · exact Or.inr hh
      · rcases ih hh with hm | hm
        · exact Or.inl (List.mem_cons_of_mem _ hm)
        · exact Or.inr hm
    · simp only [aset, if_neg h] at hp
      rcases List.mem_cons.mp hp with hh | hh
      · exact Or.inl (hh ▸ List.mem_cons_self _ _)
      · rcases ih hh with hm | hm
        · exact Or.inl (List.mem_cons_of_mem _ hm)
        · exact Or.inr hm

lemma mem_amodify {β : Type} (k : String) (f : β → β) (l : List (String × β))
    (p : String × β) (hp : p ∈ amodify k f l) :
    p ∈ l ∨ ∃ q ∈ l, p = (q.1, f q.2) := by
  induction l with
  | nil => cases hp
  | cons q rest ih =>
    obtain ⟨k', v'⟩ := q
    by_cases h : k' = k
    · simp only [amodify, if_pos h] at hp
      rcases List.mem_cons.mp hp with hh | hh
      · exact Or.inr ⟨(k', v'), List.mem_cons_self _ _, hh⟩
      · rcases ih hh with hm | ⟨q2, hq2, hq2e⟩
        · exact Or.inl (List.mem_cons_of_mem _ hm)
        · exact Or.inr ⟨q2, List.mem_cons_of_mem _ hq2, hq2e⟩
    · simp only [amodify, if_neg h] at hp
      rcases List.mem_cons.mp hp with hh | hh
      · exact Or.inl (hh ▸ List.mem_cons_self _ _)
      · rcases ih hh with hm | ⟨q2, hq2, hq2e⟩
        · exact Or.inl (List.mem_cons_of_mem _ hm)
        · exact Or.inr ⟨q2, List.mem_cons_of_mem _ hq2, hq2e⟩

lemma chainInRange_getEffect (ch : BuiltinFXChainState ℚ) (et : BuiltinEffectType)
    (h : MixingService.chainInRange ch) :
    MixingService.paramsInRange et (getEffect ch et).parameters := by
  cases et with
  | eq => exact h.1
  | compressor => exact h.2.1
  | gate => exact h.2.2.1
  | saturator => exact h.2.2.2

lemma chainInRange_setEffect (ch : BuiltinFXChainState ℚ) (et : BuiltinEffectType)
    (st : BuiltinFXState ℚ) (h : MixingService.chainInRange ch)
    (hst : MixingService.paramsInRange et st.parameters) :
    MixingService.chainInRange (setEffect ch et st) := by
  cases et with
  | eq => exact ⟨hst, h.2.1, h.2.2.1, h.2.2.2⟩
  | compressor => exact ⟨h.1, hst, h.2.2.1, h.2.2.2⟩
  | gate => exact ⟨h.1, h.2.1, hst, h.2.2.2⟩
  | saturator => exact ⟨h.1, h.2.1, h.2.2.1, hst⟩

lemma clamp_scan_ok (v : ℚ) (pid : String) (l : List (ParameterSpec ℚ)) (r : ℚ)
    (hmm : ∀ ps ∈ l, ps.minimum ≤ ps.maximum)
    (h : clamp_scan pid v l = .ok r) :
    ∃ ps ∈ l, ps.param_id = pid ∧ ps.minimum ≤ r ∧ r ≤ ps.maximum := by
  induction l with
  | nil => simp [clamp_scan] at h
  | cons q rest ih =>
    by_cases hq : q.param_id = pid
    · simp only [clamp_scan, if_pos hq, Except.ok.injEq] at h
      subst h
      exact ⟨q, List.mem_cons_self _ _, hq,
        le_min (le_max_right v q.minimum) (hmm q (List.mem_cons_self _ _)),
        min_le_right _ _⟩
    · simp only [clamp_scan, if_neg hq] at h
      obtain ⟨ps, hmem, h1, h2, h3⟩ :=
        ih (fun ps hps => hmm ps (List.mem_cons_of_mem _ hps)) h
      exact ⟨ps, List.mem_cons_of_mem _ hmem, h1, h2, h3⟩

lemma clamp_param_ok_range (et : BuiltinEffectType) (pid : String) (v r : ℚ)
    (h : clamp_param et pid v = .ok r) :
    ∃ ps ∈ EFFECT_SPECS ℚ et, ps.param_id = pid ∧ ps.minimum ≤ r ∧ r ≤ ps.maximum :=
  clamp_scan_ok v pid _ r (effect_specs_min_le_max et) h

lemma aset_paramsInRange (et : BuiltinEffectType) (pid : String) (v : ℚ)
    (params : List (String × ℚ)) (h : MixingService.paramsInRange et params)
    (hv : ∃ ps ∈ EFFECT_SPECS ℚ et, ps.param_id = pid ∧ ps.minimum ≤ v ∧ v ≤ ps.maximum) :
    MixingService.paramsInRange et (aset pid v params) := by
  intro p hp
  rcases mem_aset pid v params p hp with hmem | rfl
  · exact h p hmem
  · obtain ⟨ps, hps, h1, h2, h3⟩ := hv
    exact ⟨ps, hps, h1, h2, h3⟩

lemma apply_updates_params_range (et : BuiltinEffectType) (mix : ℚ) :
    ∀ (ups : List (String × ℚ)) (ch ch' : BuiltinFXChainState ℚ),
      MixingService.chainInRange ch →
      MixingService.apply_updates_params et mix ups ch = .ok ch' →
      MixingService.chainInRange ch' := by
  intro ups
  induction ups with
  | nil =>
    intro ch ch' h happ
    simp only [MixingService.apply_updates_params, Except.ok.injEq] at happ
    exact happ ▸ h
  | cons pu rest ih =>
    intro ch ch' h happ
    obtain ⟨pid, target⟩ := pu
    cases hcur : aget pid (getEffect ch et).parameters with
    | none => simp [MixingService.apply_updates_params, hcur] at happ
    | some current =>
      cases hcl : clamp_param et pid (current + (target - current) * mix) with
      | error e => simp [MixingService.apply_updates_params, hcur, hcl] at happ
      | ok v =>
        simp only [MixingService.apply_updates_params, hcur, hcl] at happ
        exact ih _ _
          (chainInRange_setEffect ch et _ h
            (aset_paramsInRange et pid v _ (chainInRange_getEffect ch et h)
              (clamp_param_ok_range et pid _ v hcl)))
          happ

lemma apply_updates_effects_range (mix : ℚ) :
    ∀ (u : List (BuiltinEffectType × List (String × ℚ)))
      (ch ch' : BuiltinFXChainState ℚ),
      MixingService.chainInRange ch →
      MixingService.apply_updates_effects mix u ch = .ok ch' →
      MixingService.chainInRange ch' := by
  intro u
  induction u with
  | nil =>
    intro ch ch' h happ
    simp only [MixingService.apply_updates_effects, Except.ok.injEq] at happ
    exact happ ▸ h
  | cons eu rest ih =>
    intro ch ch' h happ
    obtain ⟨et, ups⟩ := eu
    cases hp : MixingService.apply_updates_params et mix ups ch with
    | error e => simp [MixingService.apply_updates_effects, hp] at happ
    | ok ch2 =>
      simp only [MixingService.apply_updates_effects, hp] at happ
      exact ih _ _ (apply_updates_params_range et mix ups ch ch2 h hp) happ

lemma apply_param_updates_range (ch ch' : BuiltinFXChainState ℚ)
    (u : List (BuiltinEffectType × List (String × ℚ))) (dw : ℚ)
    (h : MixingService.chainInRange ch)
    (happ : MixingService.apply_param_updates ch u dw = .ok ch') :
    MixingService.chainInRange ch' :=
  apply_updates_effects_range _ u ch ch' h happ

lemma default_chain_range : MixingService.chainInRange (default_fx_chain ℚ) := by
  with_unfolding_all decide

lemma tracks_range_amodify (t : String) (c : BuiltinFXChainState ℚ)
    (l : List (String × MixerTrackState ℚ))
    (h : ∀ p ∈ l, MixingService.chainInRange p.2.fx_chain)
    (hcr : MixingService.chainInRange c) :
    ∀ p ∈ amodify t (fun tr => { tr with fx_chain := c }) l,
      MixingService.chainInRange p.2.fx_chain := by
  intro p hp
  rcases mem_amodify t _ l p hp with hmem | ⟨q, hq, rfl⟩
  · exact h p hmem
  · exact hcr

lemma ensure_tracks_range (g : MixerGraph) (t : String)
    (h : ∀ p ∈ g.tracks, MixingService.chainInRange p.2.fx_chain) :
    ∀ p ∈ (ensure_track g t).2.tracks, MixingService.chainInRange p.2.fx_chain := by
  cases haget : aget t g.tracks with
  | some tr =>
    simpa only [ensure_track, haget] using h
  | none =>
    simp only [ensure_track, haget]
    intro p hp
    rcases List.mem_cons.mp hp with hh | hh
    · subst hh
      exact default_chain_range
    · exact h p hh

lemma ensure_fst_range (g : MixerGraph) (t : String)
    (h : ∀ p ∈ g.tracks, MixingService.chainInRange p.2.fx_chain) :
    MixingService.chainInRange ((ensure_track g t).1).fx_chain := by
  cases haget : aget t g.tracks with
  | some tr =>
    simpa only [ensure_track, haget] using h (t, tr) (aget_mem t g.tracks tr haget)
  | none =>
    simp only [ensure_track, haget]
    exact default_chain_range

lemma cancel_Inv (s : MixingService.State) (t : String) (h : MixingService.Inv s) :
    MixingService.Inv (MixingService.cancel_preview s t) := by
  obtain ⟨ht, hc, hcmd⟩ := h
  obtain ⟨g, bo, sgs, cmds, ord, pc, nid⟩ := s
  dsimp only at ht hc hcmd
  cases hcache : aget t pc with
  | none =>
    simp only [MixingService.cancel_preview, hcache]
    exact ⟨ht, hc, hcmd⟩
  | some baseline =>
    have hbr : MixingService.chainInRange baseline :=
      hc (t, baseline) (aget_mem t pc baseline hcache)
    simp only [MixingService.cancel_preview, hcache, MixingService.setChain]
    exact ⟨tracks_range_amodify t baseline _ (ensure_tracks_range g t ht) hbr,
      fun p hp => hc p (List.mem_of_mem_filter hp), hcmd⟩

lemma preview_Inv (s : MixingService.State) (t sid : String) (dw : ℚ)
    (h : MixingService.Inv s) :
    MixingService.Inv (MixingService.preview s t sid dw).2 := by
  obtain ⟨ht, hc, hcmd⟩ := h
  obtain ⟨g, bo, sgs, cmds, ord, pc, nid⟩ := s
  dsimp only at ht hc hcmd
  cases bo with
  | false =>
    simp only [MixingService.preview, Bool.false_eq_true, if_false]
    exact ⟨ht, hc, hcmd⟩
  | true =>
    cases hg : MixingService.get_suggestion ⟨g, true, sgs, cmds, ord, pc, nid⟩ sid t with
    | error e =>
      simp only [MixingService.preview, hg, if_true]
      exact ⟨ht, hc, hcmd⟩
    | ok sg =>
      have htrk := ensure_tracks_range g t ht
      have hfst := ensure_fst_range g t ht
      cases hcache : aget t pc with
      | some baseline =>
        have hbr : MixingService.chainInRange baseline :=
          hc (t, baseline) (aget_mem t pc baseline hcache)
        cases hupd : MixingService.apply_param_updates baseline sg.param_updates dw with
        | error e =>
          simp only [MixingService.preview, hg, if_true, clone_eq, hcache, hupd]
          exact ⟨htrk, hc, hcmd⟩
        | ok updated =>
          simp only [MixingService.preview, hg, if_true, clone_eq, hcache, hupd,
            MixingService.setChain]
          exact ⟨tracks_range_amodify t updated _ htrk
              (apply_param_updates_range baseline updated sg.param_updates dw hbr hupd),
            hc, hcmd⟩
      | none =>
        have hcons : ∀ p ∈ (t, (ensure_track g t).1.fx_chain) :: pc,
            MixingService.chainInRange p.2 := by
          intro p hp
          rcases List.mem_cons.mp hp with hh | hh
          · subst hh
            exact hfst
          · exact hc p hh
        cases hupd : MixingService.apply_param_updates (ensure_track g t).1.fx_chain
            sg.param_updates dw with
        | error e =>
          simp only [MixingService.preview, hg, if_true, clone_eq, hcache, hupd]
          exact ⟨htrk, hcons, hcmd⟩
        | ok updated =>
          simp only [MixingService.preview, hg, if_true, clone_eq, hcache, hupd,
            MixingService.setChain]
          exact ⟨tracks_range_amodify t updated _ htrk
              (apply_param_updates_range _ updated sg.param_updates dw hfst hupd),
            hcons, hcmd⟩

lemma apply_Inv (s : MixingService.State) (t sid : String) (h : MixingService.Inv s) :
    MixingService.Inv (MixingService.apply s t sid).2 := by
  obtain ⟨ht, hc, hcmd⟩ := h
  obtain ⟨g, bo, sgs, cmds, ord, pc, nid⟩ := s
  dsimp only at ht hc hcmd
  cases bo with
  | false =>
    simp only [MixingService.apply, Bool.false_eq_true, if_false]
    exact ⟨ht, hc, hcmd⟩
  | true =>
    cases hg : MixingService.get_suggestion ⟨g, true, sgs, cmds, ord, pc, nid⟩ sid t with
    | error e =>
      simp only [MixingService.apply, hg, if_true]
      exact ⟨ht, hc, hcmd⟩
    | ok sg =>
      simp only [MixingService.apply, hg, if_true, clone_eq]
      have h2 : MixingService.Inv
          (MixingService.cancel_preview
            ⟨(ensure_track g t).2, true, sgs, cmds, ord, pc, nid⟩ t) :=
        cancel_Inv _ t ⟨ensure_tracks_range g t ht, hc, hcmd⟩
      obtain ⟨ht2, hc2, hcmd2⟩ := h2
      cases htr2 : aget t (MixingService.cancel_preview
          ⟨(ensure_track g t).2, true, sgs, cmds, ord, pc, nid⟩ t).mixer_graph.tracks with
      | none =>
        simp only [htr2]
        exact ⟨ht2, hc2, hcmd2⟩
      | some tr2 =>
        have htr2r : MixingService.chainInRange tr2.fx_chain :=
          ht2 (t, tr2) (aget_mem t _ tr2 htr2)
        cases hupd : MixingService.apply_param_updates tr2.fx_chain sg.param_updates 1 with
        | error e =>
          simp only [htr2, hupd]
          exact ⟨ht2, hc2, hcmd2⟩
        | ok after =>
          have har : MixingService.chainInRange after :=
            apply_param_updates_range tr2.fx_chain after sg.param_updates 1 htr2r hupd
          simp only [htr2, hupd, MixingService.setChain]
          refine ⟨tracks_range_amodify t after _ ht2 har, hc2, ?_⟩
          intro p hp
          rcases List.mem_cons.mp hp with hh | hh
          · subst hh
            exact ⟨htr2r, har⟩
          · exact hcmd2 p hh

lemma revert_Inv (s : MixingService.State) (cid : String) (h : MixingService.Inv s) :
    MixingService.Inv (MixingService.revert s cid).2 := by
  obtain ⟨ht, hc, hcmd⟩ := h
  obtain ⟨g, bo, sgs, cmds, ord, pc, nid⟩ := s
  dsimp only at ht hc hcmd
  cases hcg : aget cid cmds with
  | none =>
    simp only [MixingService.revert, hcg]
    exact ⟨ht, hc, hcmd⟩
  | some cmd =>
    have hcr := hcmd (cid, cmd) (aget_mem cid cmds cmd hcg)
    simp only [MixingService.revert, hcg, clone_eq, MixingService.setChain]
    have h1 : MixingService.Inv
        (MixingService.cancel_preview
          ⟨(ensure_track g cmd.track_id).2, bo, sgs, cmds, ord, pc, nid⟩ cmd.track_id) :=
      cancel_Inv _ _ ⟨ensure_tracks_range g cmd.track_id ht, hc, hcmd⟩
    obtain ⟨ht1, hc1, hcmd1⟩ := h1
    refine ⟨?_, hc1, ?_⟩
    · exact tracks_range_amodify cmd.track_id cmd.before_chain _ ht1 hcr.1
    · intro p hp
      rcases mem_amodify cid _ _ p hp with hm | ⟨q, hq, rfl⟩
      · exact hcmd1 p hm
      · exact ⟨(hcmd1 q hq).1, (hcmd1 q hq).2⟩

lemma step_Inv (s : MixingService.State) (op : MixingService.MixOp)
    (h : MixingService.Inv s) : MixingService.Inv (MixingService.step s op) := by
  cases op with
  | previewOp t sid dw => exact preview_Inv s t sid dw h
  | cancelOp t => exact cancel_Inv s t h
  | applyOp t sid => exact apply_Inv s t sid h
  | revertOp cid => exact revert_Inv s cid h

/-- C9: from any service state whose live chains, preview baselines and
command snapshots are within registry bounds (as are the default chains
created by `ensure_track`), any sequence of `preview`, `cancel_preview`,
`apply` and `revert` operations keeps every parameter of every track's
live FX chain within its registry `[minimum, maximum]` bounds: every
written value passes through `clamp_param` or is a copy of an earlier
in-range chain. -/
theorem spec_c9_param_bounds_invariant (s : MixingService.State)
    (h : MixingService.Inv s) (ops : List MixingService.MixOp) :
    MixingService.Inv (MixingService.runOps s ops) := by
  induction ops generalizing s with
  | nil => exact h
  | cons op rest ih => exact ih (MixingService.step s op) (step_Inv s op h)

/-- Witness for C9: an out-of-range preview (dry-wet 2, clamped), an
apply, a cancel and a revert on the concrete state keep all chains within
bounds. -/
theorem spec_c9_witness :
    MixingService.Inv (MixingService.runOps st0
      [.previewOp "t" "s1" 2, .applyOp "t" "s1", .cancelOp "t", .revertOp "cmd-0"]) :=
  spec_c9_param_bounds_invariant st0 (by with_unfolding_all decide) _

lemma mkRuleSuggestions_length (t : String) (p : MixProfile) (role : String)
    (f : TrackFeatures ℚ) : ∀ (n : Nat) (cs : List Candidate),
    (mkRuleSuggestions t p role f n cs).length = cs.length := by
  intro n cs
  induction cs generalizing n with
  | nil => rfl
  | cons c rest ih => simp [mkRuleSuggestions, ih]

lemma suggest_from_features_length (t : String) (p : MixProfile)
    (f : TrackFeatures ℚ) : (suggest_from_features t p f).length = 3 := by
  unfold suggest_from_features
  rw [mkRuleSuggestions_length, List.length_take, List.length_insertionSort]
  rfl

lemma mkRuleSuggestions_mem_score (t : String) (p : MixProfile) (role : String)
    (f : TrackFeatures ℚ) : ∀ (n : Nat) (cs : List Candidate) (sg : Suggestion),
    sg ∈ mkRuleSuggestions t p role f n cs → ∃ c ∈ cs, sg.score = round4 c.score := by
  intro n cs
  induction cs generalizing n with
  | nil => intro sg h; cases h
  | cons c rest ih =>
    intro sg h
    rcases List.mem_cons.mp h with hh | hh
    · exact ⟨c, List.mem_cons_self _ _, by rw [hh]⟩
    · obtain ⟨c2, hc2, he⟩ := ih (n + 1) sg hh
      exact ⟨c2, List.mem_cons_of_mem _ hc2, he⟩

lemma roundHalfEven_bounds (z : ℚ) :
    (⌊z⌋ : ℤ) ≤ roundHalfEven z ∧ roundHalfEven z ≤ ⌊z⌋ + 1 := by
  unfold roundHalfEven
  split_ifs <;> omega

lemma roundHalfEven_mono {x y : ℚ} (h : x ≤ y) :
    roundHalfEven x ≤ roundHalfEven y := by
  have hf : ⌊x⌋ ≤ ⌊y⌋ := Int.floor_le_floor h
  rcases eq_or_lt_of_le hf with heq | hlt
  · unfold roundHalfEven
    rw [← heq]
    have hfrac : x - (⌊x⌋ : ℚ) ≤ y - (⌊x⌋ : ℚ) := by linarith
    split_ifs <;> first | omega | linarith
  · calc roundHalfEven x ≤ ⌊x⌋ + 1 := (roundHalfEven_bounds x).2
      _ ≤ ⌊y⌋ := by omega
      _ ≤ roundHalfEven y := (roundHalfEven_bounds y).1

lemma round4_mono {x y : ℚ} (h : x ≤ y) : round4 x ≤ round4 y := by
  unfold round4
  have h1 : x * 10000 ≤ y * 10000 := by linarith
  have h2 : (roundHalfEven (x * 10000) : ℚ) ≤ (roundHalfEven (y * 10000) : ℚ) := by
    exact_mod_cast roundHalfEven_mono h1
  linarith

lemma mkRuleSuggestions_pairwise (t : String) (p : MixProfile) (role : String)
    (f : TrackFeatures ℚ) : ∀ (n : Nat) (cs : List Candidate),
    cs.Pairwise candScoreDesc → (mkRuleSuggestions t p role f n cs).Pairwise scoreDesc := by
  intro n cs
  induction cs generalizing n with
  | nil => intro _; exact List.Pairwise.nil
  | cons c rest ih =>
    intro h
    rw [mkRuleSuggestions]
    refine List.Pairwise.cons ?_ (ih (n + 1) (List.pairwise_cons.mp h).2)
    intro sg hsg
    obtain ⟨c2, hc2, he⟩ := mkRuleSuggestions_mem_score t p role f (n + 1) rest sg hsg
    show sg.score ≤ round4 c.score
    rw [he]
    exact round4_mono ((List.pairwise_cons.mp h).1 c2 hc2)

lemma suggest_from_features_sorted (t : String) (p : MixProfile)
    (f : TrackFeatures ℚ) : (suggest_from_features t p f).Pairwise scoreDesc := by
  unfold suggest_from_features
  exact mkRuleSuggestions_pairwise t p _ f 0 _
    ((List.sorted_insertionSort candScoreDesc _).sublist (List.take_sublist 3 _))

lemma parse_llm_response_sorted (t : String) (p : MixProfile)
    (payload : List (String × JValue)) :
    (parse_llm_response t p payload).Pairwise scoreDesc ∧
      (parse_llm_response t p payload).length ≤ 3 := by
  unfold parse_llm_response
  split
  · constructor
    · exact (List.sorted_insertionSort scoreDesc _).sublist (List.take_sublist 3 _)
    · rw [List.length_take]
      exact min_le_left 3 _
  · exact ⟨List.Pairwise.nil, by simp⟩

lemma llmGenerate_ok (endpoint : String) (transport : Except String JValue)
    (t : String) (p : MixProfile) (sugs : List Suggestion)
    (h : llmGenerate endpoint transport t p = .ok sugs) :
    sugs.Pairwise scoreDesc ∧ sugs.length ≤ 3 := by
  unfold llmGenerate at h
  split at h
  · cases h
  · split at h
    · cases h
    · split at h
      · cases h
      · rename_i payload _
        obtain rfl : parse_llm_response t p payload = sugs := by
          injection h
        exact parse_llm_response_sorted t p payload
    · cases h

lemma map_preserve_score_pairwise (l : List Suggestion) (f : Suggestion → Suggestion)
    (hf : ∀ sg, (f sg).score = sg.score) (h : l.Pairwise scoreDesc) :
    (l.map f).Pairwise scoreDesc :=
  (List.pairwise_map).mpr (h.imp fun {a b} hab =>
    show (f b).score ≤ (f a).score by rw [hf a, hf b]; exact hab)

lemma generate_suggestions_sorted (mode : SuggestionEngineMode) (fb : Bool)
    (endpoint : String) (transport : Except String JValue) (t : String)
    (p : MixProfile) (f : TrackFeatures ℚ) :
    (resultSuggestions (generate_suggestions mode fb
      (llmGenerate endpoint transport t p) t p f)).Pairwise scoreDesc := by
  cases mode with
  | ruleBased =>
    simpa [generate_suggestions, resultSuggestions] using
      suggest_from_features_sorted t p f
  | llmBased =>
    cases hllm : llmGenerate endpoint transport t p with
    | ok sugs =>
      simpa [generate_suggestions, resultSuggestions] using
        (llmGenerate_ok endpoint transport t p sugs hllm).1
    | error msg =>
      cases fb with
      | false => simp [generate_suggestions, resultSuggestions]
      | true =>
        simp only [generate_suggestions, resultSuggestions]
        exact map_preserve_score_pairwise _ _ (fun _ => rfl)
          (suggest_from_features_sorted t p f)

lemma generate_suggestions_capped (mode : SuggestionEngineMode) (fb : Bool)
    (endpoint : String) (transport : Except String JValue) (t : String)
    (p : MixProfile) (f : TrackFeatures ℚ) :
    (resultSuggestions (generate_suggestions mode fb
      (llmGenerate endpoint transport t p) t p f)).length ≤ 3 := by
  cases mode with
  | ruleBased =>
    simp [generate_suggestions, resultSuggestions, suggest_from_features_length t p f]
  | llmBased =>
    cases hllm : llmGenerate endpoint transport t p with
    | ok sugs =>
      simpa [generate_suggestions, resultSuggestions] using
        (llmGenerate_ok endpoint transport t p sugs hllm).2
    | error msg =>
      cases fb with
      | false => simp [generate_suggestions, resultSuggestions]
      | true =>
        simp [generate_suggestions, resultSuggestions, suggest_from_features_length t p f]

/-- C7: every suggestion list produced by the `suggest` dispatcher — the
rule-based path, the remote path (through the full response parse) and the
fallback path — is sorted by score in descending order and holds at most
three candidates; the rule-based path returns exactly three. -/
theorem spec_c7_ranked_and_capped (mode : SuggestionEngineMode) (fallback_enabled : Bool)
    (endpoint : String) (transport : Except String JValue) (track_id : String)
    (profile : MixProfile) (features : TrackFeatures ℚ) :
    (resultSuggestions (generate_suggestions mode fallback_enabled
        (llmGenerate endpoint transport track_id profile)
        track_id profile features)).Pairwise scoreDesc ∧
      (resultSuggestions (generate_suggestions mode fallback_enabled
        (llmGenerate endpoint transport track_id profile)
        track_id profile features)).length ≤ 3 ∧
      (resultSuggestions (generate_suggestions .ruleBased fallback_enabled
        (llmGenerate endpoint transport track_id profile)
        track_id profile features)).length = 3 :=
  ⟨generate_suggestions_sorted mode fallback_enabled endpoint transport track_id
      profile features,
    generate_suggestions_capped mode fallback_enabled endpoint transport track_id
      profile features,
    by simpa [generate_suggestions, resultSuggestions] using
      suggest_from_features_length track_id profile features⟩

/-- Witness for C7 on the always-failing remote path with fallback. -/
theorem spec_c7_witness :
    (resultSuggestions (generate_suggestions .llmBased true
        (llmGenerate "" (.error "boom") "t" .clean) "t" .clean zeroQFeatures)).Pairwise
        scoreDesc ∧
      (resultSuggestions (generate_suggestions .llmBased true
        (llmGenerate "" (.error "boom") "t" .clean) "t" .clean zeroQFeatures)).length ≤ 3 ∧
      (resultSuggestions (generate_suggestions .ruleBased true
        (llmGenerate "" (.error "boom") "t" .clean) "t" .clean zeroQFeatures)).length = 3 :=
  spec_c7_ranked_and_capped .llmBased true "" (.error "boom") "t" .clean zeroQFeatures

lemma format_fallback_reason_short (msg : String) :
    (format_fallback_reason msg).length ≤ 120 := by
  simp only [format_fallback_reason]
  split_ifs with h1 h2
  · decide
  · rw [String.length_append]
    have ht : (String.mk ((msg.trim.data.map
        fun c => if c = '\n' then ' ' else c).take 117)).length =
        ((msg.trim.data.map fun c => if c = '\n' then ' ' else c).take 117).length := rfl
    rw [ht, List.length_take]
    have hm : min 117 (msg.trim.data.map fun c => if c = '\n' then ' ' else c).length ≤ 117 :=
      min_le_left _ _
    have h3 : ("..." : String).length = 3 := rfl
    omega
  · have ht : (String.mk (msg.trim.data.map fun c => if c = '\n' then ' ' else c)).length =
        (msg.trim.data.map fun c => if c = '\n' then ' ' else c).length := rfl
    rw [ht]
    omega

lemma format_fallback_reason_default (msg : String) (h : msg.trim = "") :
    format_fallback_reason msg = "llm_error" := by
  simp [format_fallback_reason, h]

lemma sanitize_no_newline (msg : String) :
    ∀ ch ∈ (msg.trim.data.map fun c => if c = '\n' then ' ' else c), ch ≠ '\n' := by
  intro ch hch
  obtain ⟨x, hx, rfl⟩ := List.mem_map.mp hch
  by_cases hx2 : x = '\n'
  · simp [hx2]
  · simpa [hx2] using hx2

lemma format_fallback_reason_no_newline (msg : String) :
    ∀ ch ∈ (format_fallback_reason msg).data, ch ≠ '\n' := by
  simp only [format_fallback_reason]
  split_ifs with h1 h2
  · decide
  · intro ch hch
    have hdata : (String.mk ((msg.trim.data.map
        fun c => if c = '\n' then ' ' else c).take 117) ++ "...").data =
        ((msg.trim.data.map fun c => if c = '\n' then ' ' else c).take 117) ++
          ("..." : String).data := rfl
    rw [hdata] at hch
    rcases List.mem_append.mp hch with hh | hh
    · exact sanitize_no_newline msg ch ((List.take_sublist 117 _).subset hh)
    · have hdots : ("..." : String).data = ['.', '.', '.'] := rfl
      rw [hdots] at hh
      simp only [List.mem_cons, List.not_mem_nil, or_false] at hh
      rcases hh with rfl | rfl | rfl <;> decide
  · intro ch hch
    exact sanitize_no_newline msg ch hch

/-- C4: when the remote engine raises on generation (error text `msg`) and
fallback is enabled, the dispatcher returns the three rule-based
suggestions with source recorded as `rule-based-fallback`, every reason
annotated with `| fallback=` followed by the sanitized failure text —
newline-free, at most 120 characters, defaulting to `llm_error` when the
stripped text is empty; with fallback disabled the original error
propagates. -/
theorem spec_c4_fallback_policy (msg track_id : String) (profile : MixProfile)
    (features : TrackFeatures ℚ) :
    (∃ sugs, generate_suggestions .llmBased true (.error msg) track_id profile features =
        .ok (sugs, "rule-based-fallback", some (format_fallback_reason msg)) ∧
      3 ≤ sugs.length ∧
      ∀ sg ∈ sugs, ∃ base,
        sg.reason = base ++ " | fallback=" ++ format_fallback_reason msg) ∧
      (format_fallback_reason msg).length ≤ 120 ∧
      (msg.trim = "" → format_fallback_reason msg = "llm_error") ∧
      (∀ ch ∈ (format_fallback_reason msg).data, ch ≠ '\n') ∧
      generate_suggestions .llmBased false (.error msg) track_id profile features =
        .error msg := by
  refine ⟨⟨_, rfl, ?_, ?_⟩,
    format_fallback_reason_short msg, format_fallback_reason_default msg,
    format_fallback_reason_no_newline msg, rfl⟩
  · simp [List.length_map, suggest_from_features_length]
  · intro sg hsg
    obtain ⟨sg0, hsg0, rfl⟩ := List.mem_map.mp hsg
    exact ⟨sg0.reason, rfl⟩

/-- Witness for C4 at a concrete failure text. -/
theorem spec_c4_witness :
    generate_suggestions .llmBased false (.error "boom") "t" .clean zeroQFeatures =
        .error "boom" ∧
      (format_fallback_reason "boom").length ≤ 120 := by
  have h := spec_c4_fallback_policy "boom" "t" .clean zeroQFeatures
  exact ⟨h.2.2.2.2, h.2.1⟩

lemma effect_specs_ids_nodup_real (et : BuiltinEffectType) :
    ((EFFECT_SPECS ℝ et).map (·.param_id)).Nodup := by
  cases et <;> decide

lemma find_param_id {α : Type} [LinearOrderedField α] (l : List (ParameterSpec α))
    (ps : ParameterSpec α) (hmem : ps ∈ l) (hnd : (l.map (·.param_id)).Nodup) :
    (l.find? fun q => q.param_id == ps.param_id) = some ps := by
  induction l with
  | nil => exact absurd hmem (List.not_mem_nil ps)
  | cons q rest ih =>
    simp only [List.map_cons, List.nodup_cons] at hnd
    rcases List.mem_cons.mp hmem with h | h
    · subst h
      rw [List.find?_cons_of_pos _ (by simp)]
    · have hne : (q.param_id == ps.param_id) = false := by
        simp only [beq_eq_false_iff_ne, ne_eq]
        exact fun he => hnd.1 (he ▸ List.mem_map_of_mem (·.param_id) h)
      rw [List.find?_cons_of_neg _ (by simp [hne])]
      exact ih h hnd.2

lemma spec_default_of_mem (et : BuiltinEffectType) (ps : ParameterSpec ℝ)
    (hmem : ps ∈ EFFECT_SPECS ℝ et) :
    spec_default ℝ et ps.param_id = some ps.default := by
  unfold spec_default
  rw [find_param_id _ ps hmem (effect_specs_ids_nodup_real et)]
  rfl

lemma default_chain_effect_params (et : BuiltinEffectType) :
    (getEffect (default_fx_chain ℝ) et).parameters =
      (EFFECT_SPECS ℝ et).map fun ps => (ps.param_id, ps.default) := by
  cases et <;> rfl

lemma default_track_not_active (track : MixerTrackState ℝ)
    (hg : track.input_gain_db = 0) (hf : track.fader_db = 0) (hp : track.pan = 0)
    (hc : track.fx_chain = default_fx_chain ℝ) :
    ¬ is_track_processing_active track := by
  unfold is_track_processing_active
  intro h
  rcases h with h | h | h | h
  · rw [hg] at h
    norm_num at h
  · rw [hf] at h
    norm_num at h
  · rw [hp] at h
    norm_num at h
  · obtain ⟨et, p, hmem, hbad⟩ := h
    rw [hc, default_chain_effect_params] at hmem
    obtain ⟨ps, hps, rfl⟩ := List.mem_map.mp hmem
    have hsd := spec_default_of_mem et ps hps
    rcases hbad with hnone | ⟨d, hd, hgt⟩
    · rw [hsd] at hnone
      cases hnone
    · rw [hsd] at hd
      injection hd with hd
      subst hd
      rw [sub_self, abs_zero] at hgt
      norm_num at hgt

/-- C5: a track state whose gains and pan are zero and whose FX chain holds
every parameter at its registry default is not "processing active", so
`render_track_preview_wav` copies the source bytes verbatim, for any input
bytes and any WAV decode/encode functions. -/
theorem spec_c5_default_render_passthrough (read_wav : List UInt8 → WaveBuffer)
    (write_wav : WaveBuffer → List UInt8) (source_bytes : List UInt8)
    (track : MixerTrackState ℝ)
    (hg : track.input_gain_db = 0) (hf : track.fader_db = 0) (hp : track.pan = 0)
    (hc : track.fx_chain = default_fx_chain ℝ) :
    render_track_preview_wav read_wav write_wav source_bytes track = source_bytes := by
  unfold render_track_preview_wav
  rw [if_neg (default_track_not_active track hg hf hp hc)]

/-- Witness for C5 at a concrete default track and byte list. -/
theorem spec_c5_witness :
    render_track_preview_wav (fun _ => ⟨44100, 1, 2, 0, []⟩) (fun _ => [])
      [1, 2, 3] (defaultTrack ℝ "t") = [1, 2, 3] :=
  spec_c5_default_render_passthrough _ _ _ _ rfl rfl rfl rfl

lemma foldl_max_zero : ∀ n : ℕ, (List.replicate n (0 : ℝ)).foldl max 0 = 0
  | 0 => rfl
  | n + 1 => by
    rw [List.replicate_succ, List.foldl_cons, max_self]
    exact foldl_max_zero n

lemma pyMax_replicate_zero (n : ℕ) : pyMax (List.replicate n (0 : ℝ)) = 0 := by
  cases n with
  | zero => rfl
  | succ m =>
    rw [List.replicate_succ]
    exact foldl_max_zero m

lemma strideSum_replicate_zero (n off : ℕ) :
    strideSum (List.replicate n (0 : ℝ)) off = 0 := by
  unfold strideSum
  apply List.sum_eq_zero
  intro x hx
  obtain ⟨q, hq, rfl⟩ := List.mem_map.mp hx
  exact List.eq_of_mem_replicate
    (List.snd_mem_of_mem_enum (List.mem_of_mem_filter hq))

lemma insertionSort_replicate_zero (n : ℕ) :
    List.insertionSort (· ≤ ·) (List.replicate n (0 : ℝ)) = List.replicate n 0 := by
  refine List.eq_replicate_iff.mpr ⟨?_, ?_⟩
  · rw [List.length_insertionSort, List.length_replicate]
  · intro b hb
    exact List.eq_of_mem_replicate ((List.perm_insertionSort _ _).mem_iff.mp hb)

lemma getD_replicate_zero : ∀ (n i : ℕ), (List.replicate n (0 : ℝ)).getD i 0 = 0
  | 0, _ => rfl
  | _ + 1, 0 => rfl
  | n + 1, i + 1 => getD_replicate_zero n i

lemma percentile_replicate_zero (n : ℕ) (p : ℤ) :
    percentile (List.replicate n (0 : ℝ)) p = 0 := by
  simp only [percentile, insertionSort_replicate_zero]
  split_ifs
  · rfl
  · exact getD_replicate_zero n _
  · rw [getD_replicate_zero, getD_replicate_zero]
    ring

lemma tail_replicate_zero (n : ℕ) :
    (List.replicate n (0 : ℝ)).tail = List.replicate (n - 1) 0 := by
  cases n <;> rfl

lemma transient_density_replicate_zero (n : ℕ) (th : ℝ) (hth : 0 < th) :
    transient_density (List.replicate n (0 : ℝ)) th = 0 := by
  unfold transient_density
  split_ifs with h
  · rfl
  · have hc : ((List.replicate n (0 : ℝ)).zip (List.replicate n (0 : ℝ)).tail).countP
        (fun pr => decide (th ≤ |pr.2 - pr.1|)) = 0 := by
      apply List.countP_eq_zero.mpr
      intro x hx
      obtain ⟨a, b⟩ := x
      obtain ⟨h1, h2⟩ := List.of_mem_zip hx
      rw [tail_replicate_zero] at h2
      obtain rfl := List.eq_of_mem_replicate h1
      obtain rfl := List.eq_of_mem_replicate h2
      simp only [sub_zero, abs_zero, decide_eq_true_eq]
      intro hle
      linarith
    rw [hc]
    simp

lemma zero_crossing_rate_replicate_zero (n : ℕ) :
    zero_crossing_rate (List.replicate n (0 : ℝ)) = 0 := by
  unfold zero_crossing_rate
  split_ifs with h
  · rfl
  · have hc : ((List.replicate n (0 : ℝ)).zip (List.replicate n (0 : ℝ)).tail).countP
        (fun pr => decide ((pr.1 < 0 ∧ 0 ≤ pr.2) ∨ (0 < pr.1 ∧ pr.2 ≤ 0))) = 0 := by
      apply List.countP_eq_zero.mpr
      intro x hx
      obtain ⟨a, b⟩ := x
      obtain ⟨h1, h2⟩ := List.of_mem_zip hx
      rw [tail_replicate_zero] at h2
      obtain rfl := List.eq_of_mem_replicate h1
      obtain rfl := List.eq_of_mem_replicate h2
      simp
    rw [hc]
    simp

lemma logb_ten_em8 : Real.logb 10 (1e-8 : ℝ) = -8 := by
  rw [show (1e-8 : ℝ) = (10 : ℝ) ^ (-8 : ℤ) by norm_num]
  unfold Real.logb
  rw [Real.log_zpow]
  push_cast
  rw [mul_div_assoc,
    div_self (Real.log_ne_zero_of_pos_of_ne_one (by norm_num) (by norm_num))]
  ring

lemma amp_to_db_zero : amp_to_db 0 = -160 := by
  unfold amp_to_db
  rw [show max (0 : ℝ) 1e-8 = 1e-8 by norm_num, logb_ten_em8]
  norm_num

lemma amp_to_db_em8 : amp_to_db (1e-8 : ℝ) = -160 := by
  unfold amp_to_db
  rw [max_self, logb_ten_em8]
  norm_num

lemma extract_quick_replicate_zero (m : ℕ) :
    extract_quick (List.replicate (m + 1) (0 : ℝ)) =
      { lufs := -161, peak_dbfs := -160, rms_dbfs := -160, crest_factor_db := 0,
        spectral_centroid_hz := 0, band_energy_low := 0, band_energy_mid := 0,
        band_energy_high := 0, dynamic_range_db := 0, loudness_range_db := 0,
        transient_density := 0, zero_crossing_rate := 0 } := by
  have habs : (List.replicate (m + 1) (0 : ℝ)).map (|·|) = List.replicate (m + 1) 0 := by
    rw [List.map_replicate, abs_zero]
  have hsq : ((List.replicate (m + 1) (0 : ℝ)).map fun s => s * s).sum = 0 := by
    rw [List.map_replicate, mul_zero]
    simp
  simp only [extract_quick, habs, hsq, pyMax_replicate_zero, strideSum_replicate_zero,
    percentile_replicate_zero, transient_density_replicate_zero (m + 1) 0.06 (by norm_num),
    zero_crossing_rate_replicate_zero, amp_to_db_zero]
  rw [show max (0 : ℝ) 1e-8 = 1e-8 by norm_num]
  rw [show (0 : ℝ) / ((List.replicate (m + 1) (0 : ℝ)).length : ℝ) = 0 from zero_div _,
    Real.sqrt_zero]
  rw [show max (0 : ℝ) 1e-8 = 1e-8 by norm_num, amp_to_db_em8]
  norm_num

/-- C3 counterexample: a track whose sample provider supplies a non-empty
all-zero buffer, analyzed in QUICK mode, does not report the −70 floor:
the quick path computes `lufs = rms_dbfs − 1`, so `lufs` and `rms_dbfs`
cannot both be −70 (the actual values are −161 and −160). -/
theorem spec_c3_counterexample :
    aget "t1" (run_analysis .quick [("t1", List.replicate 3 (0 : ℝ))]) =
        some (extract_quick (List.replicate 3 0)) ∧
      ¬ ((extract_quick (List.replicate 3 (0 : ℝ))).lufs = -70 ∧
        (extract_quick (List.replicate 3 (0 : ℝ))).rms_dbfs = -70 ∧
        (extract_quick (List.replicate 3 (0 : ℝ))).peak_dbfs = -70) := by
  constructor
  · have hne : (List.replicate 3 (0 : ℝ)).isEmpty = false := rfl
    simp [run_analysis, extract_features, aget, hne]
  · have h := extract_quick_replicate_zero 2
    norm_num at h
    rw [h]
    intro hcl
    have := hcl.1
    norm_num at this

/-- C3 (amended): analyzing a non-empty all-zero buffer in QUICK mode and
reading the snapshot yields `peak_dbfs = rms_dbfs = -160`, `lufs = -161`
(the `_amp_to_db` floor of `20·log10(1e-8)`; the −70 floor vector applies
only to an empty buffer), and all three band-energy fractions equal 0. -/
theorem spec_c3_all_zero_quick (n : ℕ) (hn : 0 < n) :
    aget "t1" (run_analysis .quick [("t1", List.replicate n (0 : ℝ))]) = some
      { lufs := -161, peak_dbfs := -160, rms_dbfs := -160, crest_factor_db := 0,
        spectral_centroid_hz := 0, band_energy_low := 0, band_energy_mid := 0,
        band_energy_high := 0, dynamic_range_db := 0, loudness_range_db := 0,
        transient_density := 0, zero_crossing_rate := 0 } := by
  obtain ⟨m, rfl⟩ : ∃ m, n = m + 1 := ⟨n - 1, by omega⟩
  have hne : (List.replicate (m + 1) (0 : ℝ)).isEmpty = false := by
    rw [List.replicate_succ]
    rfl
  simp [run_analysis, extract_features, aget, hne, extract_quick_replicate_zero m]

/-- Witness for C3 (amended) at buffer length 3. -/
theorem spec_c3_witness :
    aget "t1" (run_analysis .quick [("t1", List.replicate 3 (0 : ℝ))]) = some
      { lufs := -161, peak_dbfs := -160, rms_dbfs := -160, crest_factor_db := 0,
        spectral_centroid_hz := 0, band_energy_low := 0, band_energy_mid := 0,
        band_energy_high := 0, dynamic_range_db := 0, loudness_range_db := 0,
        transient_density := 0, zero_crossing_rate := 0 } :=
  spec_c3_all_zero_quick 3 (by norm_num)

end MusicCreate
